import Mathlib

/-!
# swap2p-backend: the escrow log worker (`worker/service.go`)

A shallow embedding of `NewService` and `Service.Run` and the properties of the
trade events and errors that `Run` publishes.

Conventions of the embedding.

* The two unbuffered channels `TradeChan` and `ErrChan` are written by one
  goroutine only, so what `Run` publishes is one sequence of sends; it is
  recorded as a list of `Output` values, oldest first.
* A Go run-time panic (a failed single-value type assertion on a decoded
  field) ends the goroutine and with it the process: nothing is published
  afterwards.  A run therefore yields a `Result`: the sends made, and whether
  the run ended in a panic.
* `ethgo` (hashes, addresses, ABI parsing and decoding, the JSON-RPC client and
  the tracker) is a library the worker calls; what the worker needs of it is
  collected in the structure `Ethgo` and every definition takes it as a
  parameter.
* Go `int` is taken to be 64 bits wide.
-/

namespace Swap2p

/-! ## Data model -/

/-- Type `ethgo.Hash` (`[32]byte`), held as the number its bytes spell. -/
structure Hash where
  val : Fin (2 ^ 256)
deriving DecidableEq, Repr

/-- Type `ethgo.Address` (`[20]byte`), held as the number its bytes spell. -/
structure Address where
  val : Fin (2 ^ 160)
deriving DecidableEq, Repr

/-- Type `TradeEventType`: `Create = 1`, `Accept = 2`, `Reject = 3`. -/
inductive TradeEventType where
  | Create
  | Accept
  | Reject
deriving DecidableEq, Repr

/-- Type `api.TradeType`: the four constants `Run` assigns, and `unset`, the
zero value of the type, which is what a `Trade` literal that names no `Type`
holds.  The constants stand for the categories fungible/fungible (`N2020`),
fungible/non-fungible (`N20721`), non-fungible/fungible (`N72120`) and
non-fungible/non-fungible (`N721721`). -/
inductive TradeType where
  | unset
  | N2020
  | N20721
  | N72120
  | N721721
deriving DecidableEq, Repr

/-- Type `api.Trade`, with the fields `Run` writes.  `Id` is a Go `int`; `Typ`
is the field `Type`. -/
structure Trade where
  Id : Int
  Typ : TradeType
  XAmount : String
  YAmount : String
  XAsset : String
  YAsset : String
  XAddress : String
  YAddress : String
deriving DecidableEq, Repr

/-- The zero value of `api.Trade`. -/
def Trade.zero : Trade :=
  { Id := 0, Typ := TradeType.unset, XAmount := "", YAmount := "",
    XAsset := "", YAsset := "", XAddress := "", YAddress := "" }

/-- Type `TradeEvent`: the stage (`Typ`, the field `Type`) and the embedded
`api.Trade`. -/
structure TradeEvent where
  Typ : TradeEventType
  Trade : Trade
deriving DecidableEq, Repr

/-- A decoded field value, an `interface{}` in the source: a `*big.Int`, an
`ethgo.Address`, or a value of any other dynamic type. -/
inductive Value where
  | bigInt (x : Int)
  | address (a : Address)
  | other
deriving DecidableEq, Repr

/-- The decoded field set, `map[string]interface{}`. -/
abbrev Fields := List (String × Value)

/-- The declared inputs of an event (`*abi.Type`, a tuple): the name and the
ABI type of each data field. -/
abbrev Inputs := List (String × String)

/-- Type `abi.Event`, with `ID` the value of the method `ID()`. -/
structure Event where
  Name : String
  ID : Hash
  Inputs : Inputs
deriving DecidableEq, Repr

/-- Type `abi.ABI`, reduced to its events (a Go map from name to event; the
list gives one iteration order of it). -/
structure ABI where
  Events : List Event
deriving DecidableEq, Repr

/-- Type `ethgo.Log`, with the fields `Run` reads.  `Data` is a byte slice and
`none` is the nil slice. -/
structure Log where
  Address : Address
  Topics : List Hash
  Data : Option (List Nat)
deriving DecidableEq, Repr

/-- Type `Config`, with the fields `NewService` reads. -/
structure Config where
  E20E20 : String
  E20E721 : String
  E721E20 : String
  E721E721 : String
  E20E20Contract : String
  E20E721Contract : String
  E721E20Contract : String
  E721E721Contract : String
  JSONRPCClient : String
  BlockFrom : Nat
deriving DecidableEq, Repr

/-- What the worker calls in `ethgo`: `Hash.String`, `Address.String`,
`HexToAddress`, `abi.NewABI`, `Type.Decode` (an error or the field map),
`jsonrpc.NewClient` and `tracker.NewTracker` (whether they succeed). -/
structure Ethgo where
  hashString : Hash → String
  addrString : Address → String
  hexToAddress : String → Address
  newABI : String → Except String ABI
  decode : Inputs → List Nat → Except String Fields
  newClient : String → Except String Unit
  newTracker : List Address → Nat → Except String Unit

/-- The map `idEvent`, `map[string]*abi.Event`: the latest write is first. -/
abbrev EventIndex := List (String × Event)

/-- Map read `m[k]` with the comma-ok form. -/
def mapGet : EventIndex → String → Option Event
  | [], _ => none
  | (k', v) :: m, k => if k' = k then some v else mapGet m k

/-- Map write `m[k] = v`. -/
def mapSet (m : EventIndex) (k : String) (v : Event) : EventIndex :=
  (k, v) :: m

/-- Type `Service`, with the state `Run` reads (`idName` stays empty and is
never read). -/
structure Service where
  e20e20 : ABI
  e20e20C : Address
  e20e721 : ABI
  e20e721C : Address
  e721e20 : ABI
  e721e20C : Address
  e721e721 : ABI
  e721e721C : Address
  idEvent : EventIndex

/-! ## `NewService` -/

/-- The lookup key of an event signature at a contract:
`id.String() + addr.String()`. -/
def indexKey (lib : Ethgo) (id : Hash) (addr : Address) : String :=
  lib.hashString id ++ lib.addrString addr

/-- One registration loop: `for _, v := range abi.Events { idEvent[key] = v }`. -/
def register (lib : Ethgo) (addr : Address) (events : List Event) (m : EventIndex) :
    EventIndex :=
  events.foldl (fun acc v => mapSet acc (indexKey lib v.ID addr) v) m

/-- Function `NewService`: parses the four ABIs, binds the four addresses,
fills the index, then creates the client and the tracker. -/
def NewService (lib : Ethgo) (cfg : Config) : Except String Service :=
  match lib.newABI cfg.E20E20 with
  | .error err => .error ("new abi e20 -> e20: " ++ err)
  | .ok e20e20 =>
  match lib.newABI cfg.E20E721 with
  | .error err => .error ("new abi e20 -> e721: " ++ err)
  | .ok e20e721 =>
  match lib.newABI cfg.E721E20 with
  | .error err => .error ("new abi e721 -> e20: " ++ err)
  | .ok e721e20 =>
  match lib.newABI cfg.E721E721 with
  | .error err => .error ("new abi e721 -> e721: " ++ err)
  | .ok e721e721 =>
    let c1 := lib.hexToAddress cfg.E20E20Contract
    let c2 := lib.hexToAddress cfg.E20E721Contract
    let c3 := lib.hexToAddress cfg.E721E20Contract
    let c4 := lib.hexToAddress cfg.E721E721Contract
    let idx := register lib c4 e721e721.Events
      (register lib c3 e721e20.Events
        (register lib c2 e20e721.Events
          (register lib c1 e20e20.Events [])))
    match lib.newClient cfg.JSONRPCClient with
    | .error err => .error ("json rpc client: " ++ err)
    | .ok _ =>
    match lib.newTracker [c1, c2, c3, c4] cfg.BlockFrom with
    | .error err => .error ("tracker: " ++ err)
    | .ok _ =>
      .ok { e20e20 := e20e20, e20e20C := c1, e20e721 := e20e721, e20e721C := c2,
            e721e20 := e721e20, e721e20C := c3, e721e721 := e721e721, e721e721C := c4,
            idEvent := idx }

/-! ## `Service.Run` -/

/-- A send on one of the two channels: `TradeChan` or `ErrChan`. -/
inductive Output where
  | trade (t : TradeEvent)
  | err (e : String)
deriving DecidableEq, Repr

/-- What one pass of the topic loop does: nothing (`continue`, or no match),
one send, or a run-time panic. -/
inductive Outcome where
  | skip
  | pub (o : Output)
  | panic
deriving DecidableEq, Repr

/-- The sends of a run, oldest first, and whether it ended in a panic. -/
structure Result where
  out : List Output
  panicked : Bool
deriving DecidableEq, Repr

/-- Reading of a number as an `int64` (two's complement, wrap-around). -/
def wrap64 (z : Int) : Int :=
  (z + 2 ^ 63) % 2 ^ 64 - 2 ^ 63

/-- Method `(*big.Int).Int64`, and the conversion to `int` that follows it:
the low 64 bits of the magnitude read as an `int64`, negated (with wrap-around)
for a negative argument. -/
def Int64 (x : Int) : Int :=
  let v := wrap64 ((x.natAbs % 2 ^ 64 : Nat) : Int)
  if x < 0 then wrap64 (-v) else v

/-- Method `(*big.Int).String`: the decimal numeral. -/
def bigString (x : Int) : String :=
  toString x

/-- The assertion `data[k].(*big.Int)`; `none` is the panic. -/
def asBigInt (data : Fields) (k : String) : Option Int :=
  match data.lookup k with
  | some (Value.bigInt x) => some x
  | _ => none

/-- The assertion `data[k].(ethgo.Address)`; `none` is the panic. -/
def asAddress (data : Fields) (k : String) : Option Address :=
  match data.lookup k with
  | some (Value.address a) => some a
  | _ => none

/-- The guard of line 127: the address is one of the four bound ones. -/
def Service.bound (s : Service) (a : Address) : Bool :=
  !(a != s.e20e20C && a != s.e20e721C && a != s.e721e20C && a != s.e721e721C)

/-- The `case "EscrowCreated"` branch; `none` is a panic. -/
def onCreated (lib : Ethgo) (s : Service) (e : Log) (data : Fields) : Option Outcome := do
  let id ← asBigInt data "escrowIndex"
  let xAsset ← asAddress data "xTokenContractAddr"
  let yAsset ← asAddress data "yTokenContractAddr"
  let xOwner ← asAddress data "xOwner"
  let yOwner ← asAddress data "yOwner"
  let trade : Trade :=
    { Id := Int64 id, Typ := TradeType.unset, XAmount := "0", YAmount := "0",
      XAsset := lib.addrString xAsset, YAsset := lib.addrString yAsset,
      XAddress := lib.addrString xOwner, YAddress := lib.addrString yOwner }
  if e.Address = s.e20e20C then
    let xa ← asBigInt data "xAmount"
    let ya ← asBigInt data "yAmount"
    let ys ← asAddress data "yTokenContractAddr"
    let xs ← asAddress data "xTokenContractAddr"
    pure (Outcome.pub (Output.trade
      { Typ := TradeEventType.Create,
        Trade := { trade with Typ := TradeType.N2020, XAmount := bigString xa,
                              YAmount := bigString ya, YAsset := lib.addrString ys,
                              XAsset := lib.addrString xs } }))
  else if e.Address = s.e20e721C then
    let xa ← asBigInt data "xAmount"
    let ya ← asBigInt data "yIndex"
    pure (Outcome.pub (Output.trade
      { Typ := TradeEventType.Create,
        Trade := { trade with Typ := TradeType.N20721, XAmount := bigString xa,
                              YAmount := bigString ya } }))
  else if e.Address = s.e721e20C then
    let xa ← asBigInt data "xIndex"
    let ya ← asBigInt data "yAmount"
    pure (Outcome.pub (Output.trade
      { Typ := TradeEventType.Create,
        Trade := { trade with Typ := TradeType.N72120, XAmount := bigString xa,
                              YAmount := bigString ya } }))
  else if e.Address = s.e721e721C then
    let xa ← asBigInt data "xIndex"
    let ya ← asBigInt data "yIndex"
    pure (Outcome.pub (Output.trade
      { Typ := TradeEventType.Create,
        Trade := { trade with Typ := TradeType.N721721, XAmount := bigString xa,
                              YAmount := bigString ya } }))
  else
    pure Outcome.skip

/-- The `case "EscrowAccepted"` branch; `none` is a panic. -/
def onAccepted (lib : Ethgo) (s : Service) (e : Log) (data : Fields) : Option Outcome := do
  let id ← asBigInt data "escrowIndex"
  let yOwner ← asAddress data "yOwner"
  let trade : Trade := { Trade.zero with Id := Int64 id, YAddress := lib.addrString yOwner }
  if e.Address = s.e20e20C then
    pure (Outcome.pub (Output.trade
      { Typ := TradeEventType.Accept, Trade := { trade with Typ := TradeType.N2020 } }))
  else if e.Address = s.e20e721C then
    pure (Outcome.pub (Output.trade
      { Typ := TradeEventType.Accept, Trade := { trade with Typ := TradeType.N20721 } }))
  else if e.Address = s.e721e20C then
    pure (Outcome.pub (Output.trade
      { Typ := TradeEventType.Accept, Trade := { trade with Typ := TradeType.N72120 } }))
  else if e.Address = s.e721e721C then
    pure (Outcome.pub (Output.trade
      { Typ := TradeEventType.Accept, Trade := { trade with Typ := TradeType.N721721 } }))
  else
    pure Outcome.skip

/-- The `switch v.Name` of lines 139 to 202 on a decoded field set. -/
def classify (lib : Ethgo) (s : Service) (e : Log) (v : Event) (data : Fields) : Outcome :=
  if v.Name = "EscrowCreated" then
    (onCreated lib s e data).getD Outcome.panic
  else if v.Name = "EscrowAccepted" then
    (onAccepted lib s e data).getD Outcome.panic
  else if v.Name = "EscrowRejected" then
    Outcome.pub (Output.trade { Typ := TradeEventType.Reject, Trade := Trade.zero })
  else
    Outcome.skip

/-- The body of the topic loop, lines 126 to 203, for the log `e` and its
topic `t`. -/
def onTopic (lib : Ethgo) (s : Service) (e : Log) (t : Hash) : Outcome :=
  match mapGet s.idEvent (indexKey lib t e.Address) with
  | none => Outcome.skip
  | some v =>
    if !s.bound e.Address then Outcome.skip
    else
      match e.Data with
      | none => Outcome.skip
      | some d =>
        match lib.decode v.Inputs d with
        | .error err => Outcome.pub (Output.err err)
        | .ok data => classify lib s e v data

/-- The empty run. -/
def Result.done : Result := { out := [], panicked := false }

/-- One loop pass followed by the rest of the run: a panic ends the run. -/
def Outcome.andThen (o : Outcome) (rest : Result) : Result :=
  match o with
  | Outcome.skip => rest
  | Outcome.pub x => { out := x :: rest.out, panicked := rest.panicked }
  | Outcome.panic => { out := [], panicked := true }

/-- Sequencing of two runs: the second happens unless the first panicked. -/
def Result.seq (r₁ r₂ : Result) : Result :=
  if r₁.panicked then r₁ else { out := r₁.out ++ r₂.out, panicked := r₂.panicked }

/-- The loop `for _, t := range e.Topics` for one log. -/
def runTopics (lib : Ethgo) (s : Service) (e : Log) : List Hash → Result
  | [] => Result.done
  | t :: ts => (onTopic lib s e t).andThen (runTopics lib s e ts)

/-- All the work `Run` does for one log. -/
def runLog (lib : Ethgo) (s : Service) (e : Log) : Result :=
  runTopics lib s e e.Topics

/-- The loop `for _, e := range evt.Added` for one batch. -/
def runLogs (lib : Ethgo) (s : Service) : List Log → Result
  | [] => Result.done
  | e :: es => (runLog lib s e).seq (runLogs lib s es)

/-- Method `Service.Run`: the goroutine's loop `for evt := range s.t.EventCh`
over the batches of added logs delivered so far. -/
def Run (lib : Ethgo) (s : Service) : List (List Log) → Result
  | [] => Result.done
  | evt :: evts => (runLogs lib s evt).seq (Run lib s evts)

/-- The trade events among the sends, in order: the trade stream. -/
def tradeStream (r : Result) : List TradeEvent :=
  r.out.filterMap (fun o => match o with
    | Output.trade t => some t
    | Output.err _ => none)

/-- The errors among the sends, in order: the error stream. -/
def errStream (r : Result) : List String :=
  r.out.filterMap (fun o => match o with
    | Output.trade _ => none
    | Output.err m => some m)

/-! ## The four categories -/

/-- The four asset-pair categories: fungible/fungible, fungible/non-fungible,
non-fungible/fungible and non-fungible/non-fungible, in the order in which
`Run` compares a log's address with their contracts. -/
inductive Category where
  | FF
  | FN
  | NF
  | NN
deriving DecidableEq, Repr

/-- The `api.TradeType` constant `Run` assigns for a category. -/
def Category.tradeType : Category → TradeType
  | Category.FF => TradeType.N2020
  | Category.FN => TradeType.N20721
  | Category.NF => TradeType.N72120
  | Category.NN => TradeType.N721721

/-- The field `Run` reads for `XAmount` in the category's `EscrowCreated`. -/
def Category.xField : Category → String
  | Category.FF => "xAmount"
  | Category.FN => "xAmount"
  | Category.NF => "xIndex"
  | Category.NN => "xIndex"

/-- The field `Run` reads for `YAmount` in the category's `EscrowCreated`. -/
def Category.yField : Category → String
  | Category.FF => "yAmount"
  | Category.FN => "yIndex"
  | Category.NF => "yAmount"
  | Category.NN => "yIndex"

/-- The contract address bound to a category. -/
def Service.addrOf (s : Service) : Category → Address
  | Category.FF => s.e20e20C
  | Category.FN => s.e20e721C
  | Category.NF => s.e721e20C
  | Category.NN => s.e721e721C

/-- The ABI bound to a category. -/
def Service.abiOf (s : Service) : Category → ABI
  | Category.FF => s.e20e20
  | Category.FN => s.e20e721
  | Category.NF => s.e721e20
  | Category.NN => s.e721e721

/-- The case that `switch e.Address` selects: the first category, in the order
of the cases, whose contract address is `a`. -/
def Service.categoryOf (s : Service) (a : Address) : Option Category :=
  if a = s.e20e20C then some Category.FF
  else if a = s.e20e721C then some Category.FN
  else if a = s.e721e20C then some Category.NF
  else if a = s.e721e721C then some Category.NN
  else none

/-- No two categories share a contract address (an invariant of the registry
in the specification; `NewService` does not check it). -/
def Service.distinct (s : Service) : Prop :=
  s.e20e20C ≠ s.e20e721C ∧ s.e20e20C ≠ s.e721e20C ∧ s.e20e20C ≠ s.e721e721C ∧
  s.e20e721C ≠ s.e721e20C ∧ s.e20e721C ≠ s.e721e721C ∧ s.e721e20C ≠ s.e721e721C

/-- The number of logs of a sequence that a run gets to: all of them, or those
up to the first one that ends in a panic. -/
def reached (lib : Ethgo) (s : Service) : List Log → Nat
  | [] => 0
  | e :: es => if (runLog lib s e).panicked then 1 else 1 + reached lib s es

/-- The worker from start-up: `NewService` on a configuration, then `Run` on
the batches delivered; `none` when `NewService` returns an error. -/
def runFrom (lib : Ethgo) (cfg : Config) (evts : List (List Log)) : Option Result :=
  match NewService lib cfg with
  | .ok s => some (Run lib s evts)
  | .error _ => none

/-! ## A concrete library, configuration and logs

A small instance of `Ethgo` on which the definitions above can be evaluated:
lower-case hexadecimal strings of fixed width for hashes and addresses, and a
decoder that reads one 32-byte big-endian word per declared field, refuses a
payload of length zero and ignores the bytes after the last field. -/

/-- The hexadecimal digit of a number below 16. -/
def hexChar (d : Nat) : Char :=
  if d < 10 then Char.ofNat (48 + d) else Char.ofNat (87 + d)

/-- The last `w` hexadecimal digits of `n`, most significant first. -/
def hexFixed : Nat → Nat → List Char
  | 0, _ => []
  | w + 1, n => hexFixed w (n / 16) ++ [hexChar (n % 16)]

/-- The number a big-endian byte string spells. -/
def wordVal (bs : List Nat) : Nat :=
  bs.foldl (fun acc b => acc * 256 + b) 0

/-- The 32-byte big-endian word of a number. -/
def word (n : Nat) : List Nat :=
  (List.range 32).map (fun i => n / 256 ^ (31 - i) % 256)

/-- The value a word holds under an ABI type name. -/
def demoValue (ty : String) (n : Nat) : Value :=
  if ty = "uint256" then Value.bigInt (n : Int)
  else if ty = "address" then Value.address ⟨⟨n % 2 ^ 160, Nat.mod_lt _ (by decide)⟩⟩
  else Value.other

/-- The fields of a tuple of static types read off a payload: one word per
declared field, in order; the bytes after the last field are not looked at. -/
def demoFields : Inputs → List Nat → Except String Fields
  | [], _ => .ok []
  | (name, ty) :: rest, d =>
    if d.length < 32 then .error "short payload"
    else
      match demoFields rest (d.drop 32) with
      | .error err => .error err
      | .ok fs => .ok ((name, demoValue ty (wordVal (d.take 32))) :: fs)

/-- A decoder of static fields.  As the decoder of `ethgo` does, it returns the
error `empty input` on a payload of length zero, whatever the declared fields
are, and otherwise reads the fields and ignores the bytes after them. -/
def demoDecode (inputs : Inputs) (d : List Nat) : Except String Fields :=
  if d.length = 0 then .error "empty input" else demoFields inputs d

/-- Signature hashes of the three events of the examples. -/
def idCreated : Hash := ⟨⟨0xC0, by decide⟩⟩

/-- Signature hash of `EscrowAccepted` in the examples. -/
def idAccepted : Hash := ⟨⟨0xA0, by decide⟩⟩

/-- Signature hash of `EscrowRejected` in the examples. -/
def idRejected : Hash := ⟨⟨0xE0, by decide⟩⟩

/-- An `EscrowCreated` event whose two amount fields have the given names. -/
def createdEvent (x y : String) : Event :=
  { Name := "EscrowCreated", ID := idCreated,
    Inputs := [("escrowIndex", "uint256"), ("xOwner", "address"),
      ("xTokenContractAddr", "address"), (x, "uint256"), ("yOwner", "address"),
      ("yTokenContractAddr", "address"), (y, "uint256")] }

/-- The `EscrowAccepted` event of the examples. -/
def acceptedEvent : Event :=
  { Name := "EscrowAccepted", ID := idAccepted,
    Inputs := [("escrowIndex", "uint256"), ("yOwner", "address")] }

/-- The `EscrowRejected` event of the examples: it declares no data field. -/
def rejectedEvent : Event :=
  { Name := "EscrowRejected", ID := idRejected, Inputs := [] }

/-- An `EscrowCreated` event for the fungible/fungible contract that does not
declare `xAmount`. -/
def createdNoXAmount : Event :=
  { Name := "EscrowCreated", ID := idCreated,
    Inputs := [("escrowIndex", "uint256"), ("xOwner", "address"),
      ("xTokenContractAddr", "address"), ("yOwner", "address"),
      ("yTokenContractAddr", "address"), ("yAmount", "uint256")] }

/-- The ABI documents of the examples, by name. -/
def demoABI (json : String) : Except String ABI :=
  if json = "ff" then .ok ⟨[createdEvent "xAmount" "yAmount", acceptedEvent, rejectedEvent]⟩
  else if json = "fn" then .ok ⟨[createdEvent "xAmount" "yIndex", acceptedEvent, rejectedEvent]⟩
  else if json = "nf" then .ok ⟨[createdEvent "xIndex" "yAmount", acceptedEvent, rejectedEvent]⟩
  else if json = "nn" then .ok ⟨[createdEvent "xIndex" "yIndex", acceptedEvent, rejectedEvent]⟩
  else if json = "ff-short" then .ok ⟨[createdNoXAmount, acceptedEvent, rejectedEvent]⟩
  else .error "invalid abi"

/-- The contract addresses of the examples, by their configuration string. -/
def demoHexToAddress (str : String) : Address :=
  if str = "0xf1" then ⟨⟨0xF1, by decide⟩⟩
  else if str = "0xf2" then ⟨⟨0xF2, by decide⟩⟩
  else if str = "0xf3" then ⟨⟨0xF3, by decide⟩⟩
  else if str = "0xf4" then ⟨⟨0xF4, by decide⟩⟩
  else ⟨⟨0, by decide⟩⟩

/-- The library instance of the examples. -/
def demoLib : Ethgo :=
  { hashString := fun h => "0x" ++ String.mk (hexFixed 64 h.val.val),
    addrString := fun a => "0x" ++ String.mk (hexFixed 40 a.val.val),
    hexToAddress := demoHexToAddress,
    newABI := demoABI,
    decode := demoDecode,
    newClient := fun _ => .ok (),
    newTracker := fun _ _ => .ok () }

/-- The configuration of the examples: four contracts at four addresses. -/
def demoCfg : Config :=
  { E20E20 := "ff", E20E721 := "fn", E721E20 := "nf", E721E721 := "nn",
    E20E20Contract := "0xf1", E20E721Contract := "0xf2",
    E721E20Contract := "0xf3", E721E721Contract := "0xf4",
    JSONRPCClient := "http://localhost:8545", BlockFrom := 0 }

/-- An address of the examples. -/
def addr (n : Nat) : Address := ⟨⟨n % 2 ^ 160, Nat.mod_lt _ (by decide)⟩⟩

/-- The payload of an `EscrowCreated` log: escrow index, the x owner, token and
amount (or index), then the y owner, token and amount (or index). -/
def createdData (id xOwner xToken xAmt yOwner yToken yAmt : Nat) : List Nat :=
  word id ++ word xOwner ++ word xToken ++ word xAmt ++ word yOwner ++ word yToken ++ word yAmt

/-- The payload of the `EscrowCreated` event that declares no `xAmount`. -/
def createdShortData (id xOwner xToken yOwner yToken yAmt : Nat) : List Nat :=
  word id ++ word xOwner ++ word xToken ++ word yOwner ++ word yToken ++ word yAmt

/-- The configuration of the examples with the fungible/fungible ABI whose
`EscrowCreated` declares no `xAmount`. -/
def shortCfg : Config :=
  { demoCfg with E20E20 := "ff-short" }

/-- An `EscrowAccepted` log of the contract at `a`. -/
def acceptedLog (a : Nat) (id yOwner : Nat) : Log :=
  { Address := addr a, Topics := [idAccepted], Data := some (word id ++ word yOwner) }

/-- An `EscrowCreated` log of the contract at `a`. -/
def createdLog (a : Nat) (id xOwner xToken xAmt yOwner yToken yAmt : Nat) : Log :=
  { Address := addr a, Topics := [idCreated],
    Data := some (createdData id xOwner xToken xAmt yOwner yToken yAmt) }

/-- The three events every ABI of the examples shares. -/
def demoEvents (x y : String) : List Event :=
  [createdEvent x y, acceptedEvent, rejectedEvent]

/-- The service `NewService` builds from `demoCfg`. -/
def demoService : Service :=
  { e20e20 := ⟨demoEvents "xAmount" "yAmount"⟩, e20e20C := addr 0xF1,
    e20e721 := ⟨demoEvents "xAmount" "yIndex"⟩, e20e721C := addr 0xF2,
    e721e20 := ⟨demoEvents "xIndex" "yAmount"⟩, e721e20C := addr 0xF3,
    e721e721 := ⟨demoEvents "xIndex" "yIndex"⟩, e721e721C := addr 0xF4,
    idEvent :=
      register demoLib (addr 0xF4) (demoEvents "xIndex" "yIndex")
        (register demoLib (addr 0xF3) (demoEvents "xIndex" "yAmount")
          (register demoLib (addr 0xF2) (demoEvents "xAmount" "yIndex")
            (register demoLib (addr 0xF1) (demoEvents "xAmount" "yAmount") []))) }

/-- The service `NewService` builds from `shortCfg`. -/
def shortService : Service :=
  { demoService with
    e20e20 := ⟨[createdNoXAmount, acceptedEvent, rejectedEvent]⟩,
    idEvent :=
      register demoLib (addr 0xF4) (demoEvents "xIndex" "yIndex")
        (register demoLib (addr 0xF3) (demoEvents "xIndex" "yAmount")
          (register demoLib (addr 0xF2) (demoEvents "xAmount" "yIndex")
            (register demoLib (addr 0xF1)
              [createdNoXAmount, acceptedEvent, rejectedEvent] []))) }

/-- An `EscrowCreated` log for the ABI without `xAmount`. -/
def createdShortLog : Log :=
  { Address := addr 0xF1, Topics := [idCreated],
    Data := some (createdShortData 7 0x111 0xAAA 0x222 0xBBB 50) }

/-- An `EscrowRejected` log of the contract at `a` with a payload of one word
(32 zero bytes), which decodes for the event without data fields. -/
def rejectedLog (a : Nat) : Log :=
  { Address := addr a, Topics := [idRejected], Data := some (word 0) }

/-- An `EscrowRejected` log of the contract at `a` with a present payload of
length zero. -/
def rejectedEmptyLog (a : Nat) : Log :=
  { Address := addr a, Topics := [idRejected], Data := some [] }

/-- An `EscrowRejected` log of the contract at `a` with no payload (nil). -/
def rejectedNilLog (a : Nat) : Log :=
  { Address := addr a, Topics := [idRejected], Data := none }

/-- A topic that is the signature of no event of the examples. -/
def idUnknown : Hash := ⟨⟨0x77, by decide⟩⟩

/-- A log of the contract at `a` whose only topic is not registered. -/
def unknownLog (a : Nat) : Log :=
  { Address := addr a, Topics := [idUnknown], Data := some [] }

/-- The decoded fields of an `EscrowCreated` payload of the examples. -/
def createdFields (x y : String) (id xOwner xToken xAmt yOwner yToken yAmt : Nat) : Fields :=
  [("escrowIndex", Value.bigInt id), ("xOwner", Value.address (addr xOwner)),
   ("xTokenContractAddr", Value.address (addr xToken)), (x, Value.bigInt xAmt),
   ("yOwner", Value.address (addr yOwner)),
   ("yTokenContractAddr", Value.address (addr yToken)), (y, Value.bigInt yAmt)]


/-! ## Sequencing of runs -/

theorem Result.done_seq (r : Result) : Result.done.seq r = r := by
  cases r; simp [Result.seq, Result.done]

theorem Result.seq_done (r : Result) : r.seq Result.done = r := by
  cases r with
  | mk out p => cases p <;> simp [Result.seq, Result.done]

theorem Result.seq_assoc (a b c : Result) : (a.seq b).seq c = a.seq (b.seq c) := by
  cases a with
  | mk ao ap =>
    cases b with
    | mk bo bp =>
      cases ap <;> cases bp <;> simp [Result.seq]

theorem Result.seq_of_panicked (a b : Result) (h : a.panicked = true) : a.seq b = a := by
  simp [Result.seq, h]

theorem Outcome.andThen_eq_seq (o : Outcome) (r : Result) :
    o.andThen r = (o.andThen Result.done).seq r := by
  cases o <;> simp [Outcome.andThen, Result.seq, Result.done]

theorem runTopics_append (lib : Ethgo) (s : Service) (e : Log) (ts₁ ts₂ : List Hash) :
    runTopics lib s e (ts₁ ++ ts₂) = (runTopics lib s e ts₁).seq (runTopics lib s e ts₂) := by
  induction ts₁ with
  | nil => simp [runTopics, Result.done_seq]
  | cons t ts ih =>
    show (onTopic lib s e t).andThen (runTopics lib s e (ts ++ ts₂)) =
      ((onTopic lib s e t).andThen (runTopics lib s e ts)).seq (runTopics lib s e ts₂)
    rw [ih, Outcome.andThen_eq_seq, Outcome.andThen_eq_seq _ (runTopics lib s e ts),
      Result.seq_assoc]

theorem runLogs_append (lib : Ethgo) (s : Service) (l₁ l₂ : List Log) :
    runLogs lib s (l₁ ++ l₂) = (runLogs lib s l₁).seq (runLogs lib s l₂) := by
  induction l₁ with
  | nil => simp [runLogs, Result.done_seq]
  | cons e es ih =>
    show (runLog lib s e).seq (runLogs lib s (es ++ l₂)) =
      ((runLog lib s e).seq (runLogs lib s es)).seq (runLogs lib s l₂)
    rw [ih, Result.seq_assoc]

theorem Run_eq_runLogs (lib : Ethgo) (s : Service) (evts : List (List Log)) :
    Run lib s evts = runLogs lib s evts.flatten := by
  induction evts with
  | nil => simp [Run, runLogs]
  | cons b bs ih => simp only [Run, List.flatten_cons, runLogs_append, ih]

theorem Run_append (lib : Ethgo) (s : Service) (b₁ b₂ : List (List Log)) :
    Run lib s (b₁ ++ b₂) = (Run lib s b₁).seq (Run lib s b₂) := by
  simp only [Run_eq_runLogs, List.flatten_append, runLogs_append]

theorem runLogs_singleton (lib : Ethgo) (s : Service) (e : Log) :
    runLogs lib s [e] = runLog lib s e := by
  simp [runLogs, Result.seq_done]

theorem Run_singleton (lib : Ethgo) (s : Service) (e : Log) :
    Run lib s [[e]] = runLog lib s e := by
  simp [Run, runLogs, Result.seq_done]

theorem runLog_single_topic (lib : Ethgo) (s : Service) (e : Log) (t : Hash)
    (h : e.Topics = [t]) : runLog lib s e = (onTopic lib s e t).andThen Result.done := by
  simp [runLog, h, runTopics]

/-! ## The address switch -/

theorem Service.categoryOf_addrOf (s : Service) (c : Category) (hd : s.distinct) :
    s.categoryOf (s.addrOf c) = some c := by
  obtain ⟨h12, h13, h14, h23, h24, h34⟩ := hd
  cases c <;> simp [Service.categoryOf, Service.addrOf, h12, h13, h14, h23, h24, h34,
    Ne.symm h12, Ne.symm h13, Ne.symm h14, Ne.symm h23, Ne.symm h24, Ne.symm h34]

theorem Service.bound_iff (s : Service) (a : Address) :
    s.bound a = true ↔ (a = s.e20e20C ∨ a = s.e20e721C ∨ a = s.e721e20C ∨ a = s.e721e721C) := by
  simp [Service.bound]
  tauto

theorem Service.bound_of_categoryOf (s : Service) (a : Address) (c : Category)
    (h : s.categoryOf a = some c) : s.bound a = true := by
  rw [Service.bound_iff]
  unfold Service.categoryOf at h
  by_cases h1 : a = s.e20e20C
  · exact Or.inl h1
  by_cases h2 : a = s.e20e721C
  · exact Or.inr (Or.inl h2)
  by_cases h3 : a = s.e721e20C
  · exact Or.inr (Or.inr (Or.inl h3))
  by_cases h4 : a = s.e721e721C
  · exact Or.inr (Or.inr (Or.inr h4))
  simp [h1, h2, h3, h4] at h

theorem Service.categoryOf_of_bound (s : Service) (a : Address) (h : s.bound a = true) :
    ∃ c, s.categoryOf a = some c := by
  rw [Service.bound_iff] at h
  unfold Service.categoryOf
  by_cases h1 : a = s.e20e20C
  · exact ⟨Category.FF, by rw [if_pos h1]⟩
  by_cases h2 : a = s.e20e721C
  · exact ⟨Category.FN, by rw [if_neg h1, if_pos h2]⟩
  by_cases h3 : a = s.e721e20C
  · exact ⟨Category.NF, by rw [if_neg h1, if_neg h2, if_pos h3]⟩
  by_cases h4 : a = s.e721e721C
  · exact ⟨Category.NN, by rw [if_neg h1, if_neg h2, if_neg h3, if_pos h4]⟩
  simp [h1, h2, h3, h4] at h

/-! ## One pass of the topic loop -/

theorem onTopic_miss (lib : Ethgo) (s : Service) (e : Log) (t : Hash)
    (h : mapGet s.idEvent (indexKey lib t e.Address) = none) :
    onTopic lib s e t = Outcome.skip := by
  simp [onTopic, h]

theorem onTopic_unbound (lib : Ethgo) (s : Service) (e : Log) (t : Hash)
    (h : s.bound e.Address = false) : onTopic lib s e t = Outcome.skip := by
  unfold onTopic
  cases mapGet s.idEvent (indexKey lib t e.Address) <;> simp [h]

theorem onTopic_nil_data (lib : Ethgo) (s : Service) (e : Log) (t : Hash)
    (h : e.Data = none) : onTopic lib s e t = Outcome.skip := by
  unfold onTopic
  cases mapGet s.idEvent (indexKey lib t e.Address) <;> simp [h]

theorem onTopic_decoded (lib : Ethgo) (s : Service) (e : Log) (t : Hash) (v : Event)
    (d : List Nat) (data : Fields)
    (hget : mapGet s.idEvent (indexKey lib t e.Address) = some v)
    (hb : s.bound e.Address = true) (hd : e.Data = some d)
    (hdec : lib.decode v.Inputs d = .ok data) :
    onTopic lib s e t = classify lib s e v data := by
  simp [onTopic, hget, hb, hd, hdec]


/-! ## Classification of a decoded field set -/

theorem Service.categoryOf_cases (s : Service) (a : Address) (c : Category)
    (h : s.categoryOf a = some c) :
    (c = Category.FF ∧ a = s.e20e20C) ∨
    (c = Category.FN ∧ a ≠ s.e20e20C ∧ a = s.e20e721C) ∨
    (c = Category.NF ∧ a ≠ s.e20e20C ∧ a ≠ s.e20e721C ∧ a = s.e721e20C) ∨
    (c = Category.NN ∧ a ≠ s.e20e20C ∧ a ≠ s.e20e721C ∧ a ≠ s.e721e20C ∧ a = s.e721e721C) := by
  unfold Service.categoryOf at h
  by_cases h1 : a = s.e20e20C
  · rw [if_pos h1] at h
    exact Or.inl ⟨(Option.some.inj h).symm, h1⟩
  rw [if_neg h1] at h
  by_cases h2 : a = s.e20e721C
  · rw [if_pos h2] at h
    exact Or.inr (Or.inl ⟨(Option.some.inj h).symm, h1, h2⟩)
  rw [if_neg h2] at h
  by_cases h3 : a = s.e721e20C
  · rw [if_pos h3] at h
    exact Or.inr (Or.inr (Or.inl ⟨(Option.some.inj h).symm, h1, h2, h3⟩))
  rw [if_neg h3] at h
  by_cases h4 : a = s.e721e721C
  · rw [if_pos h4] at h
    exact Or.inr (Or.inr (Or.inr ⟨(Option.some.inj h).symm, h1, h2, h3, h4⟩))
  rw [if_neg h4] at h
  exact absurd h (by simp)

theorem asBigInt_of_lookup (data : Fields) (k : String) (x : Int)
    (h : data.lookup k = some (Value.bigInt x)) : asBigInt data k = some x := by
  simp [asBigInt, h]

theorem asAddress_of_lookup (data : Fields) (k : String) (a : Address)
    (h : data.lookup k = some (Value.address a)) : asAddress data k = some a := by
  simp [asAddress, h]

theorem asBigInt_of_missing (data : Fields) (k : String)
    (h : data.lookup k = none) : asBigInt data k = none := by
  simp [asBigInt, h]

theorem onCreated_eq (lib : Ethgo) (s : Service) (e : Log) (data : Fields) (c : Category)
    (idx xa ya : Int) (xOwner xTok yOwner yTok : Address)
    (hc : s.categoryOf e.Address = some c)
    (hid : data.lookup "escrowIndex" = some (Value.bigInt idx))
    (hxt : data.lookup "xTokenContractAddr" = some (Value.address xTok))
    (hyt : data.lookup "yTokenContractAddr" = some (Value.address yTok))
    (hxo : data.lookup "xOwner" = some (Value.address xOwner))
    (hyo : data.lookup "yOwner" = some (Value.address yOwner))
    (hx : data.lookup c.xField = some (Value.bigInt xa))
    (hy : data.lookup c.yField = some (Value.bigInt ya)) :
    onCreated lib s e data = some (Outcome.pub (Output.trade
      { Typ := TradeEventType.Create,
        Trade := { Id := Int64 idx, Typ := c.tradeType,
                   XAmount := bigString xa, YAmount := bigString ya,
                   XAsset := lib.addrString xTok, YAsset := lib.addrString yTok,
                   XAddress := lib.addrString xOwner,
                   YAddress := lib.addrString yOwner } })) := by
  have e1 := asBigInt_of_lookup _ _ _ hid
  have e2 := asAddress_of_lookup _ _ _ hxt
  have e3 := asAddress_of_lookup _ _ _ hyt
  have e4 := asAddress_of_lookup _ _ _ hxo
  have e5 := asAddress_of_lookup _ _ _ hyo
  have e6 := asBigInt_of_lookup _ _ _ hx
  have e7 := asBigInt_of_lookup _ _ _ hy
  rcases Service.categoryOf_cases s e.Address c hc with
    ⟨rfl, h1⟩ | ⟨rfl, h1, h2⟩ | ⟨rfl, h1, h2, h3⟩ | ⟨rfl, h1, h2, h3, h4⟩
  · simp only [Category.xField, Category.yField] at e6 e7
    simp [onCreated, e1, e2, e3, e4, e5, e6, e7, h1, Category.tradeType]
  · simp only [Category.xField, Category.yField] at e6 e7
    rw [h2] at h1
    simp [onCreated, e1, e2, e3, e4, e5, e6, e7, h1, h2, Category.tradeType]
  · simp only [Category.xField, Category.yField] at e6 e7
    rw [h3] at h1 h2
    simp [onCreated, e1, e2, e3, e4, e5, e6, e7, h1, h2, h3, Category.tradeType]
  · simp only [Category.xField, Category.yField] at e6 e7
    rw [h4] at h1 h2 h3
    simp [onCreated, e1, e2, e3, e4, e5, e6, e7, h1, h2, h3, h4, Category.tradeType]

theorem onAccepted_eq (lib : Ethgo) (s : Service) (e : Log) (data : Fields) (c : Category)
    (idx : Int) (yOwner : Address)
    (hc : s.categoryOf e.Address = some c)
    (hid : data.lookup "escrowIndex" = some (Value.bigInt idx))
    (hyo : data.lookup "yOwner" = some (Value.address yOwner)) :
    onAccepted lib s e data = some (Outcome.pub (Output.trade
      { Typ := TradeEventType.Accept,
        Trade := { Id := Int64 idx, Typ := c.tradeType, XAmount := "", YAmount := "",
                   XAsset := "", YAsset := "", XAddress := "",
                   YAddress := lib.addrString yOwner } })) := by
  have e1 := asBigInt_of_lookup _ _ _ hid
  have e5 := asAddress_of_lookup _ _ _ hyo
  rcases Service.categoryOf_cases s e.Address c hc with
    ⟨rfl, h1⟩ | ⟨rfl, h1, h2⟩ | ⟨rfl, h1, h2, h3⟩ | ⟨rfl, h1, h2, h3, h4⟩
  · simp [onAccepted, e1, e5, h1, Category.tradeType, Trade.zero]
  · rw [h2] at h1
    simp [onAccepted, e1, e5, h1, h2, Category.tradeType, Trade.zero]
  · rw [h3] at h1 h2
    simp [onAccepted, e1, e5, h1, h2, h3, Category.tradeType, Trade.zero]
  · rw [h4] at h1 h2 h3
    simp [onAccepted, e1, e5, h1, h2, h3, h4, Category.tradeType, Trade.zero]

theorem classify_created (lib : Ethgo) (s : Service) (e : Log) (v : Event) (data : Fields)
    (hn : v.Name = "EscrowCreated") :
    classify lib s e v data = (onCreated lib s e data).getD Outcome.panic := by
  simp [classify, hn]

theorem classify_accepted (lib : Ethgo) (s : Service) (e : Log) (v : Event) (data : Fields)
    (hn : v.Name = "EscrowAccepted") :
    classify lib s e v data = (onAccepted lib s e data).getD Outcome.panic := by
  simp [classify, hn]

theorem classify_rejected (lib : Ethgo) (s : Service) (e : Log) (v : Event) (data : Fields)
    (hn : v.Name = "EscrowRejected") :
    classify lib s e v data =
      Outcome.pub (Output.trade { Typ := TradeEventType.Reject, Trade := Trade.zero }) := by
  simp [classify, hn]


/-! ## The conversion of the escrow index -/

theorem wrap64_range (z : Int) : -2 ^ 63 ≤ wrap64 z ∧ wrap64 z < 2 ^ 63 := by
  unfold wrap64
  omega

theorem Int64_nonneg_eq (x : Int) (h : 0 ≤ x) : Int64 x = wrap64 (x % 2 ^ 64) := by
  unfold Int64
  have h1 : ((x.natAbs % 2 ^ 64 : Nat) : Int) = x % 2 ^ 64 := by omega
  simp only [h1]
  rw [if_neg (by omega)]

theorem Int64_range (x : Int) : -2 ^ 63 ≤ Int64 x ∧ Int64 x < 2 ^ 63 := by
  unfold Int64
  simp only
  split
  · exact wrap64_range _
  · exact wrap64_range _

theorem Int64_of_small (x : Int) (h0 : 0 ≤ x) (h1 : x < 2 ^ 63) : Int64 x = x := by
  rw [Int64_nonneg_eq x h0]
  unfold wrap64
  omega

theorem Int64_ne_of_large (x : Int) (h : 2 ^ 63 ≤ x) : Int64 x ≠ x := by
  have := (Int64_range x).2
  omega

theorem Int64_congr (x y : Int) (hx : 0 ≤ x) (hy : 0 ≤ y) (h : x % 2 ^ 64 = y % 2 ^ 64) :
    Int64 x = Int64 y := by
  rw [Int64_nonneg_eq x hx, Int64_nonneg_eq y hy, h]

theorem Int64_low_bits (x : Int) (h : 0 ≤ x) : Int64 x % 2 ^ 64 = x % 2 ^ 64 := by
  rw [Int64_nonneg_eq x h]
  unfold wrap64
  omega


/-! ## The index built by `NewService` -/

theorem mapGet_register (lib : Ethgo) (a : Address) (evs : List Event) (m : EventIndex)
    (k : String) (v : Event) (h : mapGet (register lib a evs m) k = some v) :
    (v ∈ evs ∧ k = indexKey lib v.ID a) ∨ mapGet m k = some v := by
  induction evs generalizing m with
  | nil => exact Or.inr h
  | cons ev evs ih =>
    have h' : mapGet (register lib a evs (mapSet m (indexKey lib ev.ID a) ev)) k = some v := h
    rcases ih _ h' with ⟨hm, hk⟩ | hrest
    · exact Or.inl ⟨List.mem_cons_of_mem _ hm, hk⟩
    · unfold mapSet mapGet at hrest
      by_cases hk : indexKey lib ev.ID a = k
      · rw [if_pos hk] at hrest
        have hv : ev = v := Option.some.inj hrest
        subst hv
        exact Or.inl ⟨List.mem_cons_self _ _, hk.symm⟩
      · rw [if_neg hk] at hrest
        exact Or.inr hrest

theorem NewService_fields (lib : Ethgo) (cfg : Config) (s : Service)
    (h : NewService lib cfg = .ok s) :
    s.e20e20C = lib.hexToAddress cfg.E20E20Contract ∧
    s.e20e721C = lib.hexToAddress cfg.E20E721Contract ∧
    s.e721e20C = lib.hexToAddress cfg.E721E20Contract ∧
    s.e721e721C = lib.hexToAddress cfg.E721E721Contract ∧
    lib.newABI cfg.E20E20 = .ok s.e20e20 ∧
    lib.newABI cfg.E20E721 = .ok s.e20e721 ∧
    lib.newABI cfg.E721E20 = .ok s.e721e20 ∧
    lib.newABI cfg.E721E721 = .ok s.e721e721 ∧
    s.idEvent = register lib s.e721e721C s.e721e721.Events
      (register lib s.e721e20C s.e721e20.Events
        (register lib s.e20e721C s.e20e721.Events
          (register lib s.e20e20C s.e20e20.Events []))) := by
  unfold NewService at h
  split at h
  · exact absurd h (by simp)
  split at h
  · exact absurd h (by simp)
  split at h
  · exact absurd h (by simp)
  split at h
  · exact absurd h (by simp)
  simp only at h
  split at h
  · exact absurd h (by simp)
  split at h
  · exact absurd h (by simp)
  have hs := Except.ok.inj h
  subst hs
  simp [*]

theorem NewService_index (lib : Ethgo) (cfg : Config) (s : Service)
    (h : NewService lib cfg = .ok s) (k : String) (v : Event)
    (hget : mapGet s.idEvent k = some v) :
    ∃ c, v ∈ (s.abiOf c).Events ∧ k = indexKey lib v.ID (s.addrOf c) := by
  obtain ⟨-, -, -, -, -, -, -, -, hidx⟩ := NewService_fields lib cfg s h
  rw [hidx] at hget
  rcases mapGet_register _ _ _ _ _ _ hget with h4 | hget
  · exact ⟨Category.NN, h4⟩
  rcases mapGet_register _ _ _ _ _ _ hget with h3 | hget
  · exact ⟨Category.NF, h3⟩
  rcases mapGet_register _ _ _ _ _ _ hget with h2 | hget
  · exact ⟨Category.FN, h2⟩
  rcases mapGet_register _ _ _ _ _ _ hget with h1 | hget
  · exact ⟨Category.FF, h1⟩
  simp [mapGet] at hget

theorem indexKey_inj (lib : Ethgo)
    (hlen : ∀ h h', (lib.hashString h).length = (lib.hashString h').length)
    (hinj : Function.Injective lib.addrString)
    (t id : Hash) (a c : Address) (h : indexKey lib t a = indexKey lib id c) :
    lib.hashString t = lib.hashString id ∧ a = c := by
  unfold indexKey at h
  have hd : (lib.hashString t).data ++ (lib.addrString a).data =
      (lib.hashString id).data ++ (lib.addrString c).data := by
    have := congrArg String.data h
    simpa [String.data_append] using this
  have hl : (lib.hashString t).data.length = (lib.hashString id).data.length := hlen t id
  obtain ⟨h1, h2⟩ := List.append_inj hd hl
  exact ⟨String.ext h1, hinj (String.ext h2)⟩

theorem Service.addrOf_bound (s : Service) (c : Category) : s.bound (s.addrOf c) = true := by
  rw [Service.bound_iff]
  cases c <;> simp [Service.addrOf]

theorem NewService_unbound_miss (lib : Ethgo) (cfg : Config) (s : Service)
    (hlen : ∀ h h', (lib.hashString h).length = (lib.hashString h').length)
    (hinj : Function.Injective lib.addrString)
    (h : NewService lib cfg = .ok s) (a : Address) (hb : s.bound a = false) (t : Hash) :
    mapGet s.idEvent (indexKey lib t a) = none := by
  cases hget : mapGet s.idEvent (indexKey lib t a) with
  | none => rfl
  | some v =>
    obtain ⟨c, -, hk⟩ := NewService_index lib cfg s h _ _ hget
    have hac := (indexKey_inj lib hlen hinj t v.ID a (s.addrOf c) hk).2
    rw [hac, Service.addrOf_bound] at hb
    exact absurd hb (by simp)

/-! ## The strings of the concrete library -/

theorem hexFixed_length (w n : Nat) : (hexFixed w n).length = w := by
  induction w generalizing n with
  | zero => rfl
  | succ w ih => simp [hexFixed, ih]

theorem hexChar_inj (a b : Nat) (ha : a < 16) (hb : b < 16) (h : hexChar a = hexChar b) :
    a = b := by
  have key : ∀ x : Fin 16, ∀ y : Fin 16, hexChar x.val = hexChar y.val → x = y := by decide
  have := key ⟨a, ha⟩ ⟨b, hb⟩ h
  exact congrArg Fin.val this

theorem hexFixed_inj (w n m : Nat) (hn : n < 16 ^ w) (hm : m < 16 ^ w)
    (h : hexFixed w n = hexFixed w m) : n = m := by
  induction w generalizing n m with
  | zero => simp at hn hm; omega
  | succ w ih =>
    simp only [hexFixed] at h
    have hl : (hexFixed w (n / 16)).length = (hexFixed w (m / 16)).length := by
      rw [hexFixed_length, hexFixed_length]
    obtain ⟨h1, h2⟩ := List.append_inj h hl
    have hc : hexChar (n % 16) = hexChar (m % 16) := by simpa using h2
    have hmod := hexChar_inj _ _ (Nat.mod_lt _ (by decide)) (Nat.mod_lt _ (by decide)) hc
    have hdiv := ih (n / 16) (m / 16)
      (by rw [pow_succ] at hn; omega) (by rw [pow_succ] at hm; omega) h1
    omega

theorem str_append_cancel (p x y : String) (h : p ++ x = p ++ y) : x = y := by
  have hd := congrArg String.data h
  rw [String.data_append, String.data_append] at hd
  exact String.ext (List.append_cancel_left hd)

theorem demoLib_hash_length (h h' : Hash) :
    (demoLib.hashString h).length = (demoLib.hashString h').length := by
  show ("0x" ++ String.mk (hexFixed 64 h.val.val)).length =
    ("0x" ++ String.mk (hexFixed 64 h'.val.val)).length
  rw [String.length_append, String.length_append]
  show _ + (hexFixed 64 h.val.val).length = _ + (hexFixed 64 h'.val.val).length
  rw [hexFixed_length, hexFixed_length]

theorem demoLib_addr_inj : Function.Injective demoLib.addrString := by
  intro a b h
  have hd : hexFixed 40 a.val.val = hexFixed 40 b.val.val :=
    congrArg String.data (str_append_cancel "0x" (String.mk (hexFixed 40 a.val.val))
      (String.mk (hexFixed 40 b.val.val)) h)
  have hpow : (2 : Nat) ^ 160 = 16 ^ 40 := by norm_num
  have ha : a.val.val < 16 ^ 40 := lt_of_lt_of_eq a.val.isLt hpow
  have hb : b.val.val < 16 ^ 40 := lt_of_lt_of_eq b.val.isLt hpow
  have hv : a.val = b.val := Fin.ext (hexFixed_inj 40 _ _ ha hb hd)
  cases a with
  | mk av =>
    cases b with
    | mk bv => exact congrArg Address.mk hv


/-! ## What a published event says about the decoded fields -/

theorem lookup_of_asBigInt (data : Fields) (k : String) (x : Int)
    (h : asBigInt data k = some x) : data.lookup k = some (Value.bigInt x) := by
  unfold asBigInt at h
  split at h
  · next y hy => rw [hy, Option.some.inj h]
  · exact absurd h (by simp)

theorem lookup_of_asAddress (data : Fields) (k : String) (a : Address)
    (h : asAddress data k = some a) : data.lookup k = some (Value.address a) := by
  unfold asAddress at h
  split at h
  · next y hy => rw [hy, Option.some.inj h]
  · exact absurd h (by simp)

theorem getD_panic_pub (r : Option Outcome) (o : Output)
    (h : r.getD Outcome.panic = Outcome.pub o) : r = some (Outcome.pub o) := by
  cases r with
  | none => exact absurd h (by simp)
  | some x => simpa using h

theorem onAccepted_inv (lib : Ethgo) (s : Service) (e : Log) (data : Fields) (o : Outcome)
    (h : onAccepted lib s e data = some o) :
    ∃ idx y, data.lookup "escrowIndex" = some (Value.bigInt idx) ∧
      data.lookup "yOwner" = some (Value.address y) := by
  unfold onAccepted at h
  cases h1 : asBigInt data "escrowIndex" with
  | none => simp [h1] at h
  | some idx =>
    cases h2 : asAddress data "yOwner" with
    | none => simp [h1, h2] at h
    | some y => exact ⟨idx, y, lookup_of_asBigInt _ _ _ h1, lookup_of_asAddress _ _ _ h2⟩

theorem onCreated_inv (lib : Ethgo) (s : Service) (e : Log) (data : Fields) (c : Category)
    (o : Outcome) (hc : s.categoryOf e.Address = some c)
    (h : onCreated lib s e data = some o) :
    ∃ idx xa ya xOwner xTok yOwner yTok,
      data.lookup "escrowIndex" = some (Value.bigInt idx) ∧
      data.lookup "xTokenContractAddr" = some (Value.address xTok) ∧
      data.lookup "yTokenContractAddr" = some (Value.address yTok) ∧
      data.lookup "xOwner" = some (Value.address xOwner) ∧
      data.lookup "yOwner" = some (Value.address yOwner) ∧
      data.lookup c.xField = some (Value.bigInt xa) ∧
      data.lookup c.yField = some (Value.bigInt ya) := by
  unfold onCreated at h
  cases h1 : asBigInt data "escrowIndex" with
  | none => simp [h1] at h
  | some idx =>
  cases h2 : asAddress data "xTokenContractAddr" with
  | none => simp [h1, h2] at h
  | some xTok =>
  cases h3 : asAddress data "yTokenContractAddr" with
  | none => simp [h1, h2, h3] at h
  | some yTok =>
  cases h4 : asAddress data "xOwner" with
  | none => simp [h1, h2, h3, h4] at h
  | some xOwner =>
  cases h5 : asAddress data "yOwner" with
  | none => simp [h1, h2, h3, h4, h5] at h
  | some yOwner =>
    have key : ∃ xa ya, asBigInt data c.xField = some xa ∧ asBigInt data c.yField = some ya := by
      simp only [h1, h2, h3, h4, h5, Option.bind_eq_bind, Option.some_bind] at h
      rcases Service.categoryOf_cases s e.Address c hc with
        ⟨rfl, a1⟩ | ⟨rfl, a1, a2⟩ | ⟨rfl, a1, a2, a3⟩ | ⟨rfl, a1, a2, a3, a4⟩
      · rw [if_pos a1] at h
        cases h6 : asBigInt data "xAmount" with
        | none => simp [h6] at h
        | some xa =>
          cases h7 : asBigInt data "yAmount" with
          | none => simp [h6, h7] at h
          | some ya => exact ⟨xa, ya, h6, h7⟩
      · rw [if_neg a1, if_pos a2] at h
        cases h6 : asBigInt data "xAmount" with
        | none => simp [h6] at h
        | some xa =>
          cases h7 : asBigInt data "yIndex" with
          | none => simp [h6, h7] at h
          | some ya => exact ⟨xa, ya, h6, h7⟩
      · rw [if_neg a1, if_neg a2, if_pos a3] at h
        cases h6 : asBigInt data "xIndex" with
        | none => simp [h6] at h
        | some xa =>
          cases h7 : asBigInt data "yAmount" with
          | none => simp [h6, h7] at h
          | some ya => exact ⟨xa, ya, h6, h7⟩
      · rw [if_neg a1, if_neg a2, if_neg a3, if_pos a4] at h
        cases h6 : asBigInt data "xIndex" with
        | none => simp [h6] at h
        | some xa =>
          cases h7 : asBigInt data "yIndex" with
          | none => simp [h6, h7] at h
          | some ya => exact ⟨xa, ya, h6, h7⟩
    obtain ⟨xa, ya, h6, h7⟩ := key
    exact ⟨idx, xa, ya, xOwner, xTok, yOwner, yTok, lookup_of_asBigInt _ _ _ h1,
      lookup_of_asAddress _ _ _ h2, lookup_of_asAddress _ _ _ h3,
      lookup_of_asAddress _ _ _ h4, lookup_of_asAddress _ _ _ h5,
      lookup_of_asBigInt _ _ _ h6, lookup_of_asBigInt _ _ _ h7⟩

/-! ## Runs described log by log -/

theorem tradeStream_seq (a b : Result) :
    tradeStream (a.seq b) =
      tradeStream a ++ (if a.panicked then [] else tradeStream b) := by
  cases a with
  | mk ao ap => cases ap <;> simp [Result.seq, tradeStream, List.filterMap_append]

theorem reached_le (lib : Ethgo) (s : Service) (logs : List Log) :
    reached lib s logs ≤ logs.length := by
  induction logs with
  | nil => simp [reached]
  | cons e es ih =>
    unfold reached
    split
    · simp
    · simp only [List.length_cons]; omega

theorem reached_of_no_panic (lib : Ethgo) (s : Service) (logs : List Log)
    (h : ∀ e ∈ logs, (runLog lib s e).panicked = false) :
    reached lib s logs = logs.length := by
  induction logs with
  | nil => simp [reached]
  | cons e es ih =>
    have he := h e (List.mem_cons_self _ _)
    have hes := ih (fun x hx => h x (List.mem_cons_of_mem _ hx))
    simp only [reached, he, List.length_cons, hes]
    simp
    omega

theorem runLogs_tradeStream (lib : Ethgo) (s : Service) (logs : List Log) :
    tradeStream (runLogs lib s logs) =
      ((logs.take (reached lib s logs)).map
        (fun e => tradeStream (runLog lib s e))).flatten := by
  induction logs with
  | nil => simp [runLogs, reached, tradeStream, Result.done]
  | cons e es ih =>
    simp only [runLogs, tradeStream_seq, reached]
    by_cases hp : (runLog lib s e).panicked = true
    · simp [hp]
    · have hp' : (runLog lib s e).panicked = false := by simpa using hp
      simp only [hp', Bool.false_eq_true, if_false]
      rw [ih, Nat.add_comm, List.take_succ_cons]
      simp


/-! ## The services of the examples -/

theorem demoService_built : NewService demoLib demoCfg = .ok demoService := by rfl

theorem shortService_built : NewService demoLib shortCfg = .ok shortService := by rfl

theorem demoService_distinct : demoService.distinct := by
  unfold Service.distinct
  decide

theorem rejectedEmptyLog_reported :
    Run demoLib demoService [[rejectedEmptyLog 0xF1]] =
      { out := [Output.err "empty input"], panicked := false } := by
  rfl

theorem run_single (lib : Ethgo) (s : Service) (e : Log) (t : Hash) (o : Output)
    (ht : e.Topics = [t]) (h : onTopic lib s e t = Outcome.pub o) :
    Run lib s [[e]] = { out := [o], panicked := false } := by
  rw [Run_singleton, runLog_single_topic lib s e t ht, h]
  rfl

theorem onTopic_created (lib : Ethgo) (s : Service) (e : Log) (t : Hash) (v : Event)
    (d : List Nat) (data : Fields) (c : Category)
    (idx xa ya : Int) (xOwner xTok yOwner yTok : Address)
    (hc : s.categoryOf e.Address = some c)
    (hget : mapGet s.idEvent (indexKey lib t e.Address) = some v)
    (hname : v.Name = "EscrowCreated")
    (hdata : e.Data = some d) (hdec : lib.decode v.Inputs d = .ok data)
    (hid : data.lookup "escrowIndex" = some (Value.bigInt idx))
    (hxt : data.lookup "xTokenContractAddr" = some (Value.address xTok))
    (hyt : data.lookup "yTokenContractAddr" = some (Value.address yTok))
    (hxo : data.lookup "xOwner" = some (Value.address xOwner))
    (hyo : data.lookup "yOwner" = some (Value.address yOwner))
    (hx : data.lookup c.xField = some (Value.bigInt xa))
    (hy : data.lookup c.yField = some (Value.bigInt ya)) :
    onTopic lib s e t = Outcome.pub (Output.trade
      { Typ := TradeEventType.Create,
        Trade := { Id := Int64 idx, Typ := c.tradeType,
                   XAmount := bigString xa, YAmount := bigString ya,
                   XAsset := lib.addrString xTok, YAsset := lib.addrString yTok,
                   XAddress := lib.addrString xOwner,
                   YAddress := lib.addrString yOwner } }) := by
  rw [onTopic_decoded lib s e t v d data hget (Service.bound_of_categoryOf s _ c hc) hdata hdec,
    classify_created lib s e v data hname,
    onCreated_eq lib s e data c idx xa ya xOwner xTok yOwner yTok hc hid hxt hyt hxo hyo hx hy]
  rfl

theorem onTopic_accepted (lib : Ethgo) (s : Service) (e : Log) (t : Hash) (v : Event)
    (d : List Nat) (data : Fields) (c : Category) (idx : Int) (yOwner : Address)
    (hc : s.categoryOf e.Address = some c)
    (hget : mapGet s.idEvent (indexKey lib t e.Address) = some v)
    (hname : v.Name = "EscrowAccepted")
    (hdata : e.Data = some d) (hdec : lib.decode v.Inputs d = .ok data)
    (hid : data.lookup "escrowIndex" = some (Value.bigInt idx))
    (hyo : data.lookup "yOwner" = some (Value.address yOwner)) :
    onTopic lib s e t = Outcome.pub (Output.trade
      { Typ := TradeEventType.Accept,
        Trade := { Id := Int64 idx, Typ := c.tradeType, XAmount := "", YAmount := "",
                   XAsset := "", YAsset := "", XAddress := "",
                   YAddress := lib.addrString yOwner } }) := by
  rw [onTopic_decoded lib s e t v d data hget (Service.bound_of_categoryOf s _ c hc) hdata hdec,
    classify_accepted lib s e v data hname,
    onAccepted_eq lib s e data c idx yOwner hc hid hyo]
  rfl

theorem onTopic_rejected (lib : Ethgo) (s : Service) (e : Log) (t : Hash) (v : Event)
    (d : List Nat) (data : Fields)
    (hb : s.bound e.Address = true)
    (hget : mapGet s.idEvent (indexKey lib t e.Address) = some v)
    (hname : v.Name = "EscrowRejected")
    (hdata : e.Data = some d) (hdec : lib.decode v.Inputs d = .ok data) :
    onTopic lib s e t =
      Outcome.pub (Output.trade { Typ := TradeEventType.Reject, Trade := Trade.zero }) := by
  rw [onTopic_decoded lib s e t v d data hget hb hdata hdec,
    classify_rejected lib s e v data hname]

/-! ## Creation events -/

/-- C2: for every category `c` (with the four contract addresses pairwise
distinct) and every decoded `EscrowCreated` field set with
`0 ≤ escrowIndex < 2^63` that carries the two token addresses, the two owners
and the two amount or index fields of `c`, the pass of the topic loop sends
exactly one trade event: stage `Create`, `Id = escrowIndex`, the category of
`c`, the assets and the addresses from the token and owner fields, and
`XAmount`, `YAmount` the decimal strings of the fields `c.xField`, `c.yField`
(`xAmount`/`yAmount` for FF, `xAmount`/`yIndex` for FN, `xIndex`/`yAmount` for
NF, `xIndex`/`yIndex` for NN); for a log with that one topic, this is all that
`Run` publishes. -/
theorem created_event_fields (lib : Ethgo) (s : Service) (e : Log) (t : Hash) (v : Event)
    (d : List Nat) (data : Fields) (c : Category)
    (idx xa ya : Int) (xOwner xTok yOwner yTok : Address)
    (hdist : s.distinct) (haddr : e.Address = s.addrOf c)
    (hget : mapGet s.idEvent (indexKey lib t e.Address) = some v)
    (hname : v.Name = "EscrowCreated")
    (hdata : e.Data = some d) (hdec : lib.decode v.Inputs d = .ok data)
    (hid : data.lookup "escrowIndex" = some (Value.bigInt idx))
    (h0 : 0 ≤ idx) (h63 : idx < 2 ^ 63)
    (hxt : data.lookup "xTokenContractAddr" = some (Value.address xTok))
    (hyt : data.lookup "yTokenContractAddr" = some (Value.address yTok))
    (hxo : data.lookup "xOwner" = some (Value.address xOwner))
    (hyo : data.lookup "yOwner" = some (Value.address yOwner))
    (hx : data.lookup c.xField = some (Value.bigInt xa))
    (hy : data.lookup c.yField = some (Value.bigInt ya)) :
    onTopic lib s e t = Outcome.pub (Output.trade
      { Typ := TradeEventType.Create,
        Trade := { Id := idx, Typ := c.tradeType,
                   XAmount := bigString xa, YAmount := bigString ya,
                   XAsset := lib.addrString xTok, YAsset := lib.addrString yTok,
                   XAddress := lib.addrString xOwner,
                   YAddress := lib.addrString yOwner } }) ∧
    (e.Topics = [t] →
      Run lib s [[e]] =
        { out := [Output.trade
            { Typ := TradeEventType.Create,
              Trade := { Id := idx, Typ := c.tradeType,
                         XAmount := bigString xa, YAmount := bigString ya,
                         XAsset := lib.addrString xTok, YAsset := lib.addrString yTok,
                         XAddress := lib.addrString xOwner,
                         YAddress := lib.addrString yOwner } }],
          panicked := false }) := by
  have hc : s.categoryOf e.Address = some c := by
    rw [haddr]
    exact Service.categoryOf_addrOf s c hdist
  have key := onTopic_created lib s e t v d data c idx xa ya xOwner xTok yOwner yTok
    hc hget hname hdata hdec hid hxt hyt hxo hyo hx hy
  rw [Int64_of_small idx h0 h63] at key
  exact ⟨key, fun ht => run_single lib s e t _ ht key⟩

set_option maxRecDepth 100000 in
/-- C2, the witness of the claim: the FF log with `escrowIndex = 7`,
`xAmount = 100`, `yAmount = 50`, tokens `0xAAA` and `0xBBB`, owners `0x111` and
`0x222` is published as one `Create` event with `Id = 7`, `XAmount = "100"`
and `YAmount = "50"`. -/
theorem created_event_fields_witness :
    Run demoLib demoService [[createdLog 0xF1 7 0x111 0xAAA 100 0x222 0xBBB 50]] =
      { out := [Output.trade
          { Typ := TradeEventType.Create,
            Trade := { Id := 7, Typ := TradeType.N2020, XAmount := "100", YAmount := "50",
                       XAsset := "0x0000000000000000000000000000000000000aaa",
                       YAsset := "0x0000000000000000000000000000000000000bbb",
                       XAddress := "0x0000000000000000000000000000000000000111",
                       YAddress := "0x0000000000000000000000000000000000000222" } }],
        panicked := false } :=
  (created_event_fields demoLib demoService
    (createdLog 0xF1 7 0x111 0xAAA 100 0x222 0xBBB 50) idCreated
    (createdEvent "xAmount" "yAmount") (createdData 7 0x111 0xAAA 100 0x222 0xBBB 50)
    (createdFields "xAmount" "yAmount" 7 0x111 0xAAA 100 0x222 0xBBB 50) Category.FF
    7 100 50 (addr 0x111) (addr 0xAAA) (addr 0x222) (addr 0xBBB)
    demoService_distinct rfl rfl rfl rfl rfl rfl (by decide) (by decide)
    rfl rfl rfl rfl rfl rfl).2 rfl


/-! ## Acceptance and rejection events -/

/-- C6: for a decoded `EscrowAccepted` event of a log from a bound contract
(`c` the category its address selects), every trade event the pass sends has
stage `Accept`, the category of `c`, `Id` from `escrowIndex`, `YAddress` from
`yOwner`, and `XAsset`, `YAsset`, `XAmount`, `YAmount`, `XAddress` at their
zero value (the empty string); and whenever the field set carries
`escrowIndex` and `yOwner`, exactly that event is sent, whatever else the
field set holds. -/
theorem accepted_event_fields (lib : Ethgo) (s : Service) (e : Log) (t : Hash) (v : Event)
    (d : List Nat) (data : Fields) (c : Category)
    (hc : s.categoryOf e.Address = some c)
    (hget : mapGet s.idEvent (indexKey lib t e.Address) = some v)
    (hname : v.Name = "EscrowAccepted")
    (hdata : e.Data = some d) (hdec : lib.decode v.Inputs d = .ok data) :
    (∀ ev, onTopic lib s e t = Outcome.pub (Output.trade ev) →
      ev.Typ = TradeEventType.Accept ∧ ev.Trade.Typ = c.tradeType ∧
      ev.Trade.XAsset = "" ∧ ev.Trade.YAsset = "" ∧ ev.Trade.XAmount = "" ∧
      ev.Trade.YAmount = "" ∧ ev.Trade.XAddress = "" ∧
      ∃ idx yOwner, data.lookup "escrowIndex" = some (Value.bigInt idx) ∧
        data.lookup "yOwner" = some (Value.address yOwner) ∧
        ev.Trade.Id = Int64 idx ∧ ev.Trade.YAddress = lib.addrString yOwner) ∧
    (∀ idx yOwner, data.lookup "escrowIndex" = some (Value.bigInt idx) →
      data.lookup "yOwner" = some (Value.address yOwner) →
      onTopic lib s e t = Outcome.pub (Output.trade
        { Typ := TradeEventType.Accept,
          Trade := { Id := Int64 idx, Typ := c.tradeType, XAmount := "", YAmount := "",
                     XAsset := "", YAsset := "", XAddress := "",
                     YAddress := lib.addrString yOwner } }) ∧
      (e.Topics = [t] → tradeStream (Run lib s [[e]]) =
        [{ Typ := TradeEventType.Accept,
           Trade := { Id := Int64 idx, Typ := c.tradeType, XAmount := "", YAmount := "",
                      XAsset := "", YAsset := "", XAddress := "",
                      YAddress := lib.addrString yOwner } }])) := by
  have hb := Service.bound_of_categoryOf s _ c hc
  constructor
  · intro ev hev
    rw [onTopic_decoded lib s e t v d data hget hb hdata hdec,
      classify_accepted lib s e v data hname] at hev
    have hsome := getD_panic_pub _ _ hev
    obtain ⟨idx, y, hid, hyo⟩ := onAccepted_inv lib s e data _ hsome
    rw [onAccepted_eq lib s e data c idx y hc hid hyo] at hsome
    have hev' : ev = _ := (Output.trade.inj (Outcome.pub.inj (Option.some.inj hsome))).symm
    subst hev'
    exact ⟨rfl, rfl, rfl, rfl, rfl, rfl, rfl, idx, y, hid, hyo, rfl, rfl⟩
  · intro idx y hid hyo
    have key := onTopic_accepted lib s e t v d data c idx y hc hget hname hdata hdec hid hyo
    refine ⟨key, fun ht => ?_⟩
    rw [run_single lib s e t _ ht key]
    rfl

/-- C6, at a concrete log: an `EscrowAccepted` log of the NF contract with
`escrowIndex = 9` and `yOwner = 0x222`. -/
theorem accepted_event_fields_witness :
    tradeStream (Run demoLib demoService [[acceptedLog 0xF3 9 0x222]]) =
      [{ Typ := TradeEventType.Accept,
         Trade := { Id := Int64 9, Typ := TradeType.N72120, XAmount := "", YAmount := "",
                    XAsset := "", YAsset := "", XAddress := "",
                    YAddress := demoLib.addrString (addr 0x222) } }] :=
  ((accepted_event_fields demoLib demoService (acceptedLog 0xF3 9 0x222) idAccepted
    acceptedEvent (word 9 ++ word 0x222)
    [("escrowIndex", Value.bigInt 9), ("yOwner", Value.address (addr 0x222))]
    Category.NF rfl rfl rfl rfl rfl).2 9 (addr 0x222) rfl rfl).2 rfl

/-- C7: for a decoded `EscrowRejected` event of a log from a bound contract the
pass sends one trade event with stage `Reject` whose `Trade` is the zero value:
`Id = 0` and empty asset, amount and party-address strings, whatever the field
set holds; so the events of any two such logs are equal. -/
theorem rejected_event_blank (lib : Ethgo) (s : Service)
    (e : Log) (t : Hash) (v : Event) (d : List Nat) (data : Fields)
    (e' : Log) (t' : Hash) (v' : Event) (d' : List Nat) (data' : Fields)
    (hb : s.bound e.Address = true)
    (hget : mapGet s.idEvent (indexKey lib t e.Address) = some v)
    (hname : v.Name = "EscrowRejected")
    (hdata : e.Data = some d) (hdec : lib.decode v.Inputs d = .ok data)
    (hb' : s.bound e'.Address = true)
    (hget' : mapGet s.idEvent (indexKey lib t' e'.Address) = some v')
    (hname' : v'.Name = "EscrowRejected")
    (hdata' : e'.Data = some d') (hdec' : lib.decode v'.Inputs d' = .ok data') :
    onTopic lib s e t =
      Outcome.pub (Output.trade { Typ := TradeEventType.Reject, Trade := Trade.zero }) ∧
    (Trade.zero.Id = 0 ∧ Trade.zero.XAsset = "" ∧ Trade.zero.YAsset = "" ∧
      Trade.zero.XAmount = "" ∧ Trade.zero.YAmount = "" ∧ Trade.zero.XAddress = "" ∧
      Trade.zero.YAddress = "") ∧
    onTopic lib s e' t' = onTopic lib s e t ∧
    (e.Topics = [t] → e'.Topics = [t'] →
      Run lib s [[e]] =
        { out := [Output.trade { Typ := TradeEventType.Reject, Trade := Trade.zero }],
          panicked := false } ∧
      Run lib s [[e']] = Run lib s [[e]]) := by
  have h1 := onTopic_rejected lib s e t v d data hb hget hname hdata hdec
  have h2 := onTopic_rejected lib s e' t' v' d' data' hb' hget' hname' hdata' hdec'
  refine ⟨h1, ⟨rfl, rfl, rfl, rfl, rfl, rfl, rfl⟩, h2.trans h1.symm, fun ht ht' => ?_⟩
  rw [run_single lib s e t _ ht h1, run_single lib s e' t' _ ht' h2]
  exact ⟨rfl, rfl⟩

/-- C7, at concrete logs: the `EscrowRejected` logs of the FF and of the NN
contract are published as the same event. -/
theorem rejected_event_blank_witness :
    Run demoLib demoService [[rejectedLog 0xF1]] =
      { out := [Output.trade { Typ := TradeEventType.Reject, Trade := Trade.zero }],
        panicked := false } ∧
    Run demoLib demoService [[rejectedLog 0xF4]] = Run demoLib demoService [[rejectedLog 0xF1]] :=
  (rejected_event_blank demoLib demoService
    (rejectedLog 0xF1) idRejected rejectedEvent (word 0) []
    (rejectedLog 0xF4) idRejected rejectedEvent (word 0) []
    rfl rfl rfl rfl rfl rfl rfl rfl rfl rfl).2.2.2 rfl rfl

/-! ## The escrow identifier -/

/-- C10: the `Id` of every `Create` or `Accept` trade event is `Int64` of the
decoded `escrowIndex`, a signed 64-bit number with the low 64 bits of the
index; it is the index itself below `2^63`, differs from it from `2^63` on, and
is the same for two indices that agree modulo `2^64`.  Such an event is sent
whenever the field set carries what the branch reads. -/
theorem escrowId_low_64_bits (lib : Ethgo) (s : Service) (e : Log) (t : Hash) (v : Event)
    (d : List Nat) (data : Fields) (c : Category) (idx : Int)
    (hc : s.categoryOf e.Address = some c)
    (hget : mapGet s.idEvent (indexKey lib t e.Address) = some v)
    (hname : v.Name = "EscrowCreated" ∨ v.Name = "EscrowAccepted")
    (hdata : e.Data = some d) (hdec : lib.decode v.Inputs d = .ok data)
    (hid : data.lookup "escrowIndex" = some (Value.bigInt idx))
    (h0 : 0 ≤ idx) :
    (∀ ev, onTopic lib s e t = Outcome.pub (Output.trade ev) → ev.Trade.Id = Int64 idx) ∧
    (-2 ^ 63 ≤ Int64 idx ∧ Int64 idx < 2 ^ 63 ∧ Int64 idx % 2 ^ 64 = idx % 2 ^ 64) ∧
    (idx < 2 ^ 63 → Int64 idx = idx) ∧
    (2 ^ 63 ≤ idx → Int64 idx ≠ idx) ∧
    (∀ idx' : Int, 0 ≤ idx' → idx' % 2 ^ 64 = idx % 2 ^ 64 → Int64 idx' = Int64 idx) ∧
    (v.Name = "EscrowAccepted" →
      ∀ yOwner, data.lookup "yOwner" = some (Value.address yOwner) →
      ∃ ev, onTopic lib s e t = Outcome.pub (Output.trade ev) ∧
        ev.Typ = TradeEventType.Accept ∧ ev.Trade.Id = Int64 idx) ∧
    (v.Name = "EscrowCreated" →
      ∀ xa ya xOwner xTok yOwner yTok,
      data.lookup "xTokenContractAddr" = some (Value.address xTok) →
      data.lookup "yTokenContractAddr" = some (Value.address yTok) →
      data.lookup "xOwner" = some (Value.address xOwner) →
      data.lookup "yOwner" = some (Value.address yOwner) →
      data.lookup c.xField = some (Value.bigInt xa) →
      data.lookup c.yField = some (Value.bigInt ya) →
      ∃ ev, onTopic lib s e t = Outcome.pub (Output.trade ev) ∧
        ev.Typ = TradeEventType.Create ∧ ev.Trade.Id = Int64 idx) := by
  have hb := Service.bound_of_categoryOf s _ c hc
  refine ⟨?_, ⟨(Int64_range idx).1, (Int64_range idx).2, Int64_low_bits idx h0⟩,
    Int64_of_small idx h0, Int64_ne_of_large idx,
    fun idx' h0' hmod => Int64_congr idx' idx h0' h0 hmod, ?_, ?_⟩
  · intro ev hev
    rw [onTopic_decoded lib s e t v d data hget hb hdata hdec] at hev
    rcases hname with hn | hn
    · rw [classify_created lib s e v data hn] at hev
      have hsome := getD_panic_pub _ _ hev
      obtain ⟨i, xa, ya, xo, xt, yo, yt, h1, h2, h3, h4, h5, h6, h7⟩ :=
        onCreated_inv lib s e data c _ hc hsome
      rw [onCreated_eq lib s e data c i xa ya xo xt yo yt hc h1 h2 h3 h4 h5 h6 h7] at hsome
      have hev' : ev = _ := (Output.trade.inj (Outcome.pub.inj (Option.some.inj hsome))).symm
      have hi : i = idx := Value.bigInt.inj (Option.some.inj (h1.symm.trans hid))
      subst hev'
      exact congrArg Int64 hi
    · rw [classify_accepted lib s e v data hn] at hev
      have hsome := getD_panic_pub _ _ hev
      obtain ⟨i, y, h1, h2⟩ := onAccepted_inv lib s e data _ hsome
      rw [onAccepted_eq lib s e data c i y hc h1 h2] at hsome
      have hev' : ev = _ := (Output.trade.inj (Outcome.pub.inj (Option.some.inj hsome))).symm
      have hi : i = idx := Value.bigInt.inj (Option.some.inj (h1.symm.trans hid))
      subst hev'
      exact congrArg Int64 hi
  · intro hn y hyo
    exact ⟨_, onTopic_accepted lib s e t v d data c idx y hc hget hn hdata hdec hid hyo,
      rfl, rfl⟩
  · intro hn xa ya xo xt yo yt hxt hyt hxo hyo hx hy
    exact ⟨_, onTopic_created lib s e t v d data c idx xa ya xo xt yo yt hc hget hn hdata hdec
      hid hxt hyt hxo hyo hx hy, rfl, rfl⟩

set_option maxRecDepth 100000 in
/-- C10, at concrete logs: the `EscrowAccepted` logs with `escrowIndex`
`18446744073709551623` (that is `2^64 + 7`) and `7` are both published with
`Id = 7`. -/
theorem escrowId_low_64_bits_witness :
    tradeStream (Run demoLib demoService [[acceptedLog 0xF3 18446744073709551623 0x222]]) =
      tradeStream (Run demoLib demoService [[acceptedLog 0xF3 7 0x222]]) ∧
    (tradeStream (Run demoLib demoService [[acceptedLog 0xF3 18446744073709551623 0x222]])).map
      (fun ev => ev.Trade.Id) = [7] ∧
    Int64 18446744073709551623 = Int64 7 ∧ Int64 18446744073709551623 ≠ 18446744073709551623 :=
  ⟨by rfl, by rfl,
   (escrowId_low_64_bits demoLib demoService (acceptedLog 0xF3 18446744073709551623 0x222) idAccepted
      acceptedEvent (word 18446744073709551623 ++ word 0x222)
      [("escrowIndex", Value.bigInt 18446744073709551623), ("yOwner", Value.address (addr 0x222))]
      Category.NF 18446744073709551623 rfl rfl (Or.inr rfl) rfl (by rfl) rfl
      (by decide)).2.2.2.2.1 7 (by decide) (by decide) |>.symm,
   (escrowId_low_64_bits demoLib demoService (acceptedLog 0xF3 18446744073709551623 0x222) idAccepted
      acceptedEvent (word 18446744073709551623 ++ word 0x222)
      [("escrowIndex", Value.bigInt 18446744073709551623), ("yOwner", Value.address (addr 0x222))]
      Category.NF 18446744073709551623 rfl rfl (Or.inr rfl) rfl (by rfl) rfl
      (by decide)).2.2.2.1 (by decide)⟩


/-! ## Logs that are skipped -/

theorem runTopics_all_skip (lib : Ethgo) (s : Service) (e : Log) (ts : List Hash)
    (h : ∀ t ∈ ts, onTopic lib s e t = Outcome.skip) :
    runTopics lib s e ts = Result.done := by
  induction ts with
  | nil => rfl
  | cons t ts ih =>
    simp only [runTopics, h t (List.mem_cons_self _ _), Outcome.andThen]
    exact ih (fun x hx => h x (List.mem_cons_of_mem _ hx))

theorem runLogs_cons_done (lib : Ethgo) (s : Service) (e : Log) (es : List Log)
    (h : runLog lib s e = Result.done) : runLogs lib s (e :: es) = runLogs lib s es := by
  simp only [runLogs, h, Result.done_seq]

/-- C3: a log all of whose topics, each combined with the log's address, are
absent from the index makes `Run` send nothing and go on with the next log; so
does every log whose address is none of the four bound addresses, whatever its
topics; and when hash strings have one length and address strings are
injective (as those of `ethgo` are), no key built from such an address is in
the index `NewService` builds. -/
theorem unknown_log_skipped (lib : Ethgo) (s : Service) (e : Log) (es : List Log) :
    ((∀ t ∈ e.Topics, mapGet s.idEvent (indexKey lib t e.Address) = none) →
      runLog lib s e = { out := [], panicked := false } ∧
      runLogs lib s (e :: es) = runLogs lib s es) ∧
    (s.bound e.Address = false →
      runLog lib s e = { out := [], panicked := false } ∧
      runLogs lib s (e :: es) = runLogs lib s es) ∧
    (∀ cfg, NewService lib cfg = .ok s →
      (∀ h h', (lib.hashString h).length = (lib.hashString h').length) →
      Function.Injective lib.addrString →
      s.bound e.Address = false →
      ∀ t, mapGet s.idEvent (indexKey lib t e.Address) = none) := by
  refine ⟨fun h => ?_, fun h => ?_, fun cfg hs hlen hinj hb t => ?_⟩
  · have hd : runLog lib s e = Result.done :=
      runTopics_all_skip lib s e e.Topics (fun t ht => onTopic_miss lib s e t (h t ht))
    exact ⟨hd, runLogs_cons_done lib s e es hd⟩
  · have hd : runLog lib s e = Result.done :=
      runTopics_all_skip lib s e e.Topics (fun t _ => onTopic_unbound lib s e t h)
    exact ⟨hd, runLogs_cons_done lib s e es hd⟩
  · exact NewService_unbound_miss lib cfg s hlen hinj hs e.Address hb t

set_option maxRecDepth 100000 in
/-- C3, at concrete logs: a log of the FF contract with an unregistered topic,
and a log with a registered topic from an address that is not bound, followed
by an `EscrowRejected` log. -/
theorem unknown_log_skipped_witness :
    (runLog demoLib demoService (unknownLog 0xF1) = { out := [], panicked := false } ∧
      runLogs demoLib demoService [unknownLog 0xF1, rejectedLog 0xF1] =
        runLogs demoLib demoService [rejectedLog 0xF1]) ∧
    (runLog demoLib demoService (rejectedLog 0xF5) = { out := [], panicked := false } ∧
      runLogs demoLib demoService [rejectedLog 0xF5, rejectedLog 0xF1] =
        runLogs demoLib demoService [rejectedLog 0xF1]) ∧
    (∀ t, mapGet demoService.idEvent (indexKey demoLib t (rejectedLog 0xF5).Address) = none) :=
  ⟨(unknown_log_skipped demoLib demoService (unknownLog 0xF1) [rejectedLog 0xF1]).1
      (fun t ht => by
        have ht' : t = idUnknown := List.mem_singleton.mp ht
        subst ht'
        rfl),
   (unknown_log_skipped demoLib demoService (rejectedLog 0xF5) [rejectedLog 0xF1]).2.1 rfl,
   (unknown_log_skipped demoLib demoService (rejectedLog 0xF5) []).2.2 demoCfg
      demoService_built demoLib_hash_length demoLib_addr_inj rfl⟩

/-! ## Order of publication -/

set_option maxRecDepth 100000 in
/-- C5: the trade stream of `Run` is the concatenation, in the order of the
input (batch by batch, log by log), of the trade events of each log the run
gets to, which are all the logs when none ends in a panic; hence for every
split of the input into earlier and later logs, every event of an earlier log
comes before every event of a later log.  The two `EscrowCreated` logs with
`escrowIndex` 1 and 2 in one batch are delivered as 1, then 2. -/
theorem trade_stream_in_log_order (lib : Ethgo) (s : Service) (evts : List (List Log)) :
    tradeStream (Run lib s evts) =
      ((evts.flatten.take (reached lib s evts.flatten)).map
        (fun e => tradeStream (runLog lib s e))).flatten ∧
    ((∀ e ∈ evts.flatten, (runLog lib s e).panicked = false) →
      reached lib s evts.flatten = evts.flatten.length) ∧
    (∀ earlier later, evts.flatten = earlier ++ later →
      tradeStream (Run lib s evts) =
        tradeStream (runLogs lib s earlier) ++
          (if (runLogs lib s earlier).panicked then [] else tradeStream (runLogs lib s later))) ∧
    (tradeStream (Run demoLib demoService
        [[createdLog 0xF1 1 0x111 0xAAA 100 0x222 0xBBB 50,
          createdLog 0xF1 2 0x111 0xAAA 100 0x222 0xBBB 50]])).map
      (fun ev => ev.Trade.Id) = [1, 2] := by
  refine ⟨?_, reached_of_no_panic lib s evts.flatten, fun earlier later h => ?_, by rfl⟩
  · rw [Run_eq_runLogs, runLogs_tradeStream]
  · rw [Run_eq_runLogs, h, runLogs_append, tradeStream_seq]


/-! ## The category of a published event -/

set_option maxRecDepth 100000 in
/-- C1, as stated, fails: the `EscrowRejected` log of the FF contract, whose
topic is the signature of an event of the FF schema and whose payload, one
word of 32 bytes, decodes against that event (the payload is not empty, and
the bytes after the declared fields, here all of them, are ignored), is
published as one trade event whose category is the zero value, not FF; no
error is published for it. -/
theorem rejected_event_has_no_category :
    NewService demoLib demoCfg = .ok demoService ∧
    (rejectedLog 0xF1).Address = demoService.addrOf Category.FF ∧
    rejectedEvent ∈ (demoService.abiOf Category.FF).Events ∧
    (rejectedLog 0xF1).Topics = [rejectedEvent.ID] ∧
    rejectedEvent.Name = "EscrowRejected" ∧
    (rejectedLog 0xF1).Data = some (word 0) ∧
    (word 0).length = 32 ∧
    demoLib.decode rejectedEvent.Inputs (word 0) = .ok [] ∧
    Run demoLib demoService [[rejectedLog 0xF1]] =
      { out := [Output.trade { Typ := TradeEventType.Reject, Trade := Trade.zero }],
        panicked := false } ∧
    tradeStream (Run demoLib demoService [[rejectedLog 0xF1]]) =
      [{ Typ := TradeEventType.Reject, Trade := Trade.zero }] ∧
    Trade.zero.Typ ≠ Category.FF.tradeType :=
  ⟨by rfl, by rfl, by decide, by rfl, by rfl, by rfl, by rfl, by rfl, by rfl, by rfl,
    by decide⟩

/-- C1, amended: with the four contract addresses pairwise distinct, for a log
whose address is the bound address of the category `c`, whose topic hits the
index and whose payload decodes: when the matched event is `EscrowCreated` or
`EscrowAccepted`, every trade event sent for it has the category of `c`, and
one is sent whenever the field set carries what the branch reads; when it is
`EscrowRejected`, the event sent has the zero value for its category, which is
the category of no contract. -/
theorem category_of_created_and_accepted (lib : Ethgo) (s : Service) (e : Log) (t : Hash)
    (v : Event) (d : List Nat) (data : Fields) (c : Category)
    (hdist : s.distinct) (haddr : e.Address = s.addrOf c)
    (hget : mapGet s.idEvent (indexKey lib t e.Address) = some v)
    (hdata : e.Data = some d) (hdec : lib.decode v.Inputs d = .ok data) :
    (v.Name = "EscrowCreated" ∨ v.Name = "EscrowAccepted" →
      ∀ ev, onTopic lib s e t = Outcome.pub (Output.trade ev) → ev.Trade.Typ = c.tradeType) ∧
    (v.Name = "EscrowCreated" →
      ∀ idx xa ya xOwner xTok yOwner yTok,
      data.lookup "escrowIndex" = some (Value.bigInt idx) →
      data.lookup "xTokenContractAddr" = some (Value.address xTok) →
      data.lookup "yTokenContractAddr" = some (Value.address yTok) →
      data.lookup "xOwner" = some (Value.address xOwner) →
      data.lookup "yOwner" = some (Value.address yOwner) →
      data.lookup c.xField = some (Value.bigInt xa) →
      data.lookup c.yField = some (Value.bigInt ya) →
      ∃ ev, onTopic lib s e t = Outcome.pub (Output.trade ev) ∧
        ev.Typ = TradeEventType.Create ∧ ev.Trade.Typ = c.tradeType) ∧
    (v.Name = "EscrowAccepted" →
      ∀ idx yOwner,
      data.lookup "escrowIndex" = some (Value.bigInt idx) →
      data.lookup "yOwner" = some (Value.address yOwner) →
      ∃ ev, onTopic lib s e t = Outcome.pub (Output.trade ev) ∧
        ev.Typ = TradeEventType.Accept ∧ ev.Trade.Typ = c.tradeType) ∧
    (v.Name = "EscrowRejected" →
      onTopic lib s e t =
        Outcome.pub (Output.trade { Typ := TradeEventType.Reject, Trade := Trade.zero }) ∧
      Trade.zero.Typ = TradeType.unset ∧ ∀ c', Trade.zero.Typ ≠ Category.tradeType c') := by
  have hc : s.categoryOf e.Address = some c := by
    rw [haddr]
    exact Service.categoryOf_addrOf s c hdist
  have hb := Service.bound_of_categoryOf s _ c hc
  refine ⟨fun hname ev hev => ?_, ?_, ?_, fun hn => ?_⟩
  · rw [onTopic_decoded lib s e t v d data hget hb hdata hdec] at hev
    rcases hname with hn | hn
    · rw [classify_created lib s e v data hn] at hev
      have hsome := getD_panic_pub _ _ hev
      obtain ⟨i, xa, ya, xo, xt, yo, yt, h1, h2, h3, h4, h5, h6, h7⟩ :=
        onCreated_inv lib s e data c _ hc hsome
      rw [onCreated_eq lib s e data c i xa ya xo xt yo yt hc h1 h2 h3 h4 h5 h6 h7] at hsome
      have hev' : ev = _ := (Output.trade.inj (Outcome.pub.inj (Option.some.inj hsome))).symm
      subst hev'
      rfl
    · rw [classify_accepted lib s e v data hn] at hev
      have hsome := getD_panic_pub _ _ hev
      obtain ⟨i, y, h1, h2⟩ := onAccepted_inv lib s e data _ hsome
      rw [onAccepted_eq lib s e data c i y hc h1 h2] at hsome
      have hev' : ev = _ := (Output.trade.inj (Outcome.pub.inj (Option.some.inj hsome))).symm
      subst hev'
      rfl
  · intro hn idx xa ya xo xt yo yt hid hxt hyt hxo hyo hx hy
    exact ⟨_, onTopic_created lib s e t v d data c idx xa ya xo xt yo yt hc hget hn hdata hdec
      hid hxt hyt hxo hyo hx hy, rfl, rfl⟩
  · intro hn idx y hid hyo
    exact ⟨_, onTopic_accepted lib s e t v d data c idx y hc hget hn hdata hdec hid hyo,
      rfl, rfl⟩
  · refine ⟨onTopic_rejected lib s e t v d data hb hget hn hdata hdec, rfl, fun c' => ?_⟩
    cases c' <;> decide

set_option maxRecDepth 100000 in
/-- C1, amended, at a concrete log: the `EscrowCreated` log of the NN contract
is published with the category NN. -/
theorem category_of_created_and_accepted_witness :
    ∃ ev, onTopic demoLib demoService (createdLog 0xF4 7 0x111 0xAAA 3 0x222 0xBBB 5)
        idCreated = Outcome.pub (Output.trade ev) ∧
      ev.Typ = TradeEventType.Create ∧ ev.Trade.Typ = TradeType.N721721 :=
  (category_of_created_and_accepted demoLib demoService
    (createdLog 0xF4 7 0x111 0xAAA 3 0x222 0xBBB 5) idCreated
    (createdEvent "xIndex" "yIndex") (createdData 7 0x111 0xAAA 3 0x222 0xBBB 5)
    (createdFields "xIndex" "yIndex" 7 0x111 0xAAA 3 0x222 0xBBB 5) Category.NN
    demoService_distinct rfl rfl rfl rfl).2.1 rfl 7 3 5 (addr 0x111) (addr 0xAAA)
    (addr 0x222) (addr 0xBBB) rfl rfl rfl rfl rfl rfl rfl


/-! ## Decode failures -/

theorem errStream_seq (a b : Result) :
    errStream (a.seq b) = errStream a ++ (if a.panicked then [] else errStream b) := by
  cases a with
  | mk ao ap => cases ap <;> simp [Result.seq, errStream, List.filterMap_append]

set_option maxRecDepth 100000 in
/-- C9, as stated, fails: the `EscrowRejected` event declares no data field and
its log of the FF contract has no payload; nothing is published for it, while
the same log with a present payload that decodes is published as a `Reject`
event. -/
theorem nil_payload_rejected_dropped :
    rejectedEvent.Inputs = [] ∧
    rejectedEvent.Name = "EscrowRejected" ∧
    mapGet demoService.idEvent
      (indexKey demoLib idRejected (rejectedNilLog 0xF1).Address) = some rejectedEvent ∧
    demoService.bound (rejectedNilLog 0xF1).Address = true ∧
    (rejectedNilLog 0xF1).Data = none ∧
    Run demoLib demoService [[rejectedNilLog 0xF1]] = { out := [], panicked := false } ∧
    Run demoLib demoService [[rejectedLog 0xF1]] =
      { out := [Output.trade { Typ := TradeEventType.Reject, Trade := Trade.zero }],
        panicked := false } :=
  ⟨by rfl, by rfl, by rfl, by rfl, by rfl, by rfl, by rfl⟩

/-- C9, amended: a log whose payload is absent (the nil slice) is skipped at
every topic, also one that matches an event with no data field: `Run` sends no
error and no trade event for it and goes on with the next log; a log whose
payload is present, be it empty, is handed to the decoder, and when it decodes
for `EscrowRejected` at a bound address the `Reject` event is sent. -/
theorem nil_payload_skipped (lib : Ethgo) (s : Service) (e : Log) (es : List Log) :
    (e.Data = none →
      runLog lib s e = { out := [], panicked := false } ∧
      runLogs lib s (e :: es) = runLogs lib s es ∧
      Run lib s [[e]] = { out := [], panicked := false }) ∧
    (∀ t v d data, e.Data = some d → s.bound e.Address = true →
      mapGet s.idEvent (indexKey lib t e.Address) = some v →
      v.Name = "EscrowRejected" → lib.decode v.Inputs d = .ok data →
      onTopic lib s e t =
        Outcome.pub (Output.trade { Typ := TradeEventType.Reject, Trade := Trade.zero })) := by
  refine ⟨fun h => ?_, fun t v d data hdata hb hget hn hdec =>
    onTopic_rejected lib s e t v d data hb hget hn hdata hdec⟩
  have hd : runLog lib s e = Result.done :=
    runTopics_all_skip lib s e e.Topics (fun t _ => onTopic_nil_data lib s e t h)
  refine ⟨hd, runLogs_cons_done lib s e es hd, ?_⟩
  rw [Run_singleton, hd]
  rfl

/-- C9, amended, at a concrete log: the `EscrowRejected` log without a payload
followed by one with a payload that decodes. -/
theorem nil_payload_skipped_witness :
    runLog demoLib demoService (rejectedNilLog 0xF1) = { out := [], panicked := false } ∧
    runLogs demoLib demoService [rejectedNilLog 0xF1, rejectedLog 0xF1] =
      runLogs demoLib demoService [rejectedLog 0xF1] :=
  have h := (nil_payload_skipped demoLib demoService (rejectedNilLog 0xF1)
    [rejectedLog 0xF1]).1 rfl
  ⟨h.1, h.2.1⟩

/-! ## A creation event without an amount field -/

theorem classify_created_missing (lib : Ethgo) (s : Service) (e : Log) (v : Event)
    (data : Fields) (c : Category)
    (hc : s.categoryOf e.Address = some c) (hname : v.Name = "EscrowCreated")
    (hmiss : data.lookup c.xField = none ∨ data.lookup c.yField = none) :
    classify lib s e v data = Outcome.panic := by
  rw [classify_created lib s e v data hname]
  cases h : onCreated lib s e data with
  | none => rfl
  | some o =>
    obtain ⟨_, _, _, _, _, _, _, _, _, _, _, _, h6, h7⟩ := onCreated_inv lib s e data c o hc h
    rcases hmiss with hm | hm
    · rw [hm] at h6
      exact absurd h6 (by simp)
    · rw [hm] at h7
      exact absurd h7 (by simp)

set_option maxRecDepth 100000 in
/-- C8: the code at the failing input.  The FF schema declares `EscrowCreated`
without `xAmount`; the log decodes to a field set with every other field and no
`xAmount`; the assertion on `data["xAmount"]` panics: no `Create` event with
`XAmount = "0"` is published, nothing is, and the run ends. -/
theorem created_without_amount_panics :
    NewService demoLib shortCfg = .ok shortService ∧
    mapGet shortService.idEvent (indexKey demoLib idCreated createdShortLog.Address) =
      some createdNoXAmount ∧
    createdShortLog.Data = some (createdShortData 7 0x111 0xAAA 0x222 0xBBB 50) ∧
    demoLib.decode createdNoXAmount.Inputs (createdShortData 7 0x111 0xAAA 0x222 0xBBB 50) =
      .ok [("escrowIndex", Value.bigInt 7), ("xOwner", Value.address (addr 0x111)),
        ("xTokenContractAddr", Value.address (addr 0xAAA)),
        ("yOwner", Value.address (addr 0x222)),
        ("yTokenContractAddr", Value.address (addr 0xBBB)), ("yAmount", Value.bigInt 50)] ∧
    onTopic demoLib shortService createdShortLog idCreated = Outcome.panic ∧
    Run demoLib shortService [[createdShortLog]] = { out := [], panicked := true } ∧
    Run demoLib shortService [[createdShortLog, rejectedLog 0xF1]] =
      { out := [], panicked := true } :=
  ⟨by rfl, by rfl, by rfl, by rfl, by rfl, by rfl, by rfl⟩

end Swap2p
